import Mathlib

/-!
Verification of the AH meal-planner core (meal_planner.py, db.py, web/routes.py)
against its natural-language specification.

Modelling conventions:
* Python floats are modelled as exact rationals (ℚ).
* Python strings are modelled as `List Char`; `str.lower()` is `Char.toLower`
  mapped over the characters, `a in b` (substring) is `List.isInfixOf`.
* `row["col"] or 0.0` (None/0 coalescing) is `Option.getD _ 0` (0 maps to 0).
* Python `round(x, 1)` is rounding to the nearest tenth (`roundTenth`).
* `float("inf")` scores are modelled with `WithTop ℚ` (⊤ + q = ⊤, as inf + q = inf).
* SQLite tables are lists of row structures; rowid autoincrement columns are
  modelled with monotone counters.  `sqlite3_last_insert_rowid` (surfaced as
  `cursor.lastrowid` in Python for INSERT statements) is per-connection state:
  it holds the rowid of the most recent successful insert on the connection and
  is *unchanged* when an `INSERT .. ON CONFLICT DO UPDATE` takes the update
  path, and 0 on a fresh connection.
-/

namespace AH

/-- Python strings. -/
abbrev Name := List Char

/-- Python `s.lower()` on a string. -/
def lowerName (n : Name) : Name := n.map Char.toLower

/-- Python `round(x, 1)`: round to the nearest tenth (ties modelled half-up). -/
def roundTenth (q : ℚ) : ℚ := (round (10 * q) : ℤ) / 10

/-- A row of the `recipes` table (the columns the planner reads). -/
structure Recipe where
  id : ℕ
  title : Name
  kcal_per_serving : Option ℚ
  protein_g_per_serving : Option ℚ
  carbs_g_per_serving : Option ℚ
  fat_g_per_serving : Option ℚ
deriving DecidableEq, Repr

/-- A row of the `products` table (the columns the planner reads). -/
structure Product where
  id : ℕ
  name : Name
  kcal_per_100 : Option ℚ
  protein_g_per_100 : Option ℚ
  carbs_g_per_100 : Option ℚ
  fat_g_per_100 : Option ℚ
deriving DecidableEq, Repr

/-- A row of the `recipe_tags` table. -/
structure TagRow where
  recipe_id : ℕ
  tag : Name
deriving DecidableEq, Repr

/-- The read-only catalog: `recipes`, `recipe_tags` and `products` tables. -/
structure Catalog where
  recipes : List Recipe
  recipe_tags : List TagRow
  products : List Product
deriving DecidableEq, Repr

/-- The `item_type` of a plan item ('recipe' or 'product'). -/
inductive ItemType where
  | recipe
  | product
deriving DecidableEq, Repr

/-- The `PlanItem` dataclass of meal_planner.py. -/
structure PlanItem where
  item_type : ItemType
  item_id : ℕ
  servings : ℚ
  calories : ℚ
  protein_g : ℚ
  carbs_g : ℚ
  fat_g : ℚ
  title : Name
deriving DecidableEq, Repr

/-- The totals dict produced by `_totals` (keys calories/protein_g/carbs_g/fat_g). -/
structure Totals where
  calories : ℚ
  protein_g : ℚ
  carbs_g : ℚ
  fat_g : ℚ
deriving DecidableEq, Repr

/-- Source `_calc_recipe_macros(row, servings)`. -/
def _calc_recipe_macros (r : Recipe) (servings : ℚ) : ℚ × ℚ × ℚ × ℚ :=
  ((r.kcal_per_serving.getD 0) * servings,
   (r.protein_g_per_serving.getD 0) * servings,
   (r.carbs_g_per_serving.getD 0) * servings,
   (r.fat_g_per_serving.getD 0) * servings)

/-- Source `_calc_product_macros(row, grams)`. -/
def _calc_product_macros (p : Product) (grams : ℚ) : ℚ × ℚ × ℚ × ℚ :=
  let factor := grams / 100
  ((p.kcal_per_100.getD 0) * factor,
   (p.protein_g_per_100.getD 0) * factor,
   (p.carbs_g_per_100.getD 0) * factor,
   (p.fat_g_per_100.getD 0) * factor)

/-- Source `_totals(items)`: sums of each macro over the items, rounded to one decimal. -/
def _totals (items : List PlanItem) : Totals :=
  { calories := roundTenth ((items.map PlanItem.calories).sum)
    protein_g := roundTenth ((items.map PlanItem.protein_g).sum)
    carbs_g := roundTenth ((items.map PlanItem.carbs_g).sum)
    fat_g := roundTenth ((items.map PlanItem.fat_g).sum) }

/-- Whether `needle` is a leading segment of `hay`. -/
def leadsName : Name → Name → Bool
  | [], _ => true
  | _ :: _, [] => false
  | a :: as, b :: bs => a == b && leadsName as bs

/-- Python `needle in hay` on strings: `needle` occurs contiguously in `hay`. -/
def nameContains (hay needle : Name) : Bool :=
  leadsName needle hay ||
    match hay with
    | [] => false
    | _ :: t => nameContains t needle

/-- Source `_filter_by_exclusions(name, exclusions)`: true iff some exclusion term is a
case-insensitive substring of the name. -/
def _filter_by_exclusions (name : Name) (exclusions : List Name) : Bool :=
  exclusions.any (fun ex => nameContains (lowerName name) (lowerName ex))

/-- The `macro_targets` dict (grams per day for protein/fat/carbs; values may be None). -/
structure MacroTargets where
  protein_g : Option ℚ
  fat_g : Option ℚ
  carbs_g : Option ℚ
deriving DecidableEq, Repr

/-- Python `all(v is None for v in macro_targets.values())`. -/
def MacroTargets.allNone (mt : MacroTargets) : Bool :=
  mt.protein_g.isNone && mt.fat_g.isNone && mt.carbs_g.isNone

/-- The macro-target normalisation at the top of `generate_daily_plan`
(lines 62-83): derive default gram targets from the calorie split when
`macro_targets` is omitted or all-None, else fill in each missing macro. -/
def deriveMacroTargets (target_calories : ℚ) (split : ℚ × ℚ × ℚ)
    (mtOpt : Option MacroTargets) : MacroTargets :=
  let p_frac := split.1
  let f_frac := split.2.1
  let c_frac := split.2.2
  let defaults : MacroTargets :=
    { protein_g := some (target_calories * p_frac / 4)
      fat_g := some (target_calories * f_frac / 9)
      carbs_g := some (target_calories * c_frac / 4) }
  match mtOpt with
  | none => defaults
  | some mt =>
      if mt.allNone then defaults
      else
        { protein_g := some ((mt.protein_g).getD (target_calories * p_frac / 4))
          fat_g := some ((mt.fat_g).getD (target_calories * f_frac / 9))
          carbs_g := some ((mt.carbs_g).getD (target_calories * c_frac / 4)) }

/-- The `per_meal_macro_targets` dict (lines 94-103). -/
structure PerMealMacros where
  protein_g : Option ℚ
  carbs_g : Option ℚ
  fat_g : Option ℚ
deriving DecidableEq, Repr

/-- Build `per_meal_macro_targets` from the (normalised) day targets. -/
def perMealMacros (mt : MacroTargets) (meals_per_day : ℕ) : PerMealMacros :=
  let den : ℚ := (max 1 meals_per_day : ℕ)
  { protein_g := mt.protein_g.map (· / den)
    carbs_g := mt.carbs_g.map (· / den)
    fat_g := mt.fat_g.map (· / den) }

/-- One weighted macro deviation term: `weight * abs(target - value)` when the
target is present, 0 otherwise. -/
def macroDev (weight : ℚ) (tgt : Option ℚ) (value : ℚ) : ℚ :=
  match tgt with
  | none => 0
  | some t => weight * |t - value|

/-- Source `score_recipe(r)` (lines 105-126): calorie deviation, infinite when
`kcal_per_serving` is zero or absent, plus weighted macro deviations when
per-meal macro targets are supplied. -/
def score_recipe (per_meal_target : ℚ) (pm : Option PerMealMacros) (r : Recipe) :
    WithTop ℚ :=
  let kcal := r.kcal_per_serving.getD 0
  let base : WithTop ℚ := if kcal = 0 then ⊤ else (|per_meal_target - kcal| : ℚ)
  let extra : ℚ :=
    match pm with
    | none => 0
    | some t =>
        macroDev 2 t.protein_g (r.protein_g_per_serving.getD 0) +
        macroDev 1 t.carbs_g (r.carbs_g_per_serving.getD 0) +
        macroDev (6/5) t.fat_g (r.fat_g_per_serving.getD 0)
  base + (extra : ℚ)

/-- Python `sorted(candidates, key=score_recipe)[0]` when the pool is non-empty:
the earliest element of minimal score (Python's sort is stable). -/
def pickBest (score : Recipe → WithTop ℚ) : List Recipe → Option Recipe
  | [] => none
  | r :: rs => some (rs.foldl (fun b x => if score x < score b then x else b) r)

/-- The tag-narrowed candidate query of a slot (lines 136-147): recipes joined
with `recipe_tags` on a lowercased tag match (SELECT DISTINCT keeps each recipe
once, in table order), then filtered by exclusions and the already-used set. -/
def taggedCandidates (cat : Catalog) (tags : List Name) (exclusions : List Name)
    (used : List ℕ) : List Recipe :=
  ((cat.recipes.filter (fun r =>
      cat.recipe_tags.any (fun t => t.recipe_id == r.id && tags.contains (lowerName t.tag)))).filter
    (fun r => !(_filter_by_exclusions r.title exclusions) && !(used.contains r.id)))

/-- State of the slot-selection loop: chosen recipes (in slot order) and the
`used_ids` set (as a list). -/
structure SelState where
  chosen : List Recipe
  used : List ℕ
deriving DecidableEq, Repr

/-- Python `tags = [t.lower() for t in preferred_tags_per_meal[meal_idx] if t]`
(empty when no preference list is supplied or the slot index is out of range). -/
def slotTags (preferred_tags_per_meal : Option (List (List Name))) (meal_idx : ℕ) :
    List Name :=
  match preferred_tags_per_meal with
  | none => []
  | some ls => ((ls.getD meal_idx []).filter (fun t => t ≠ [])).map lowerName

/-- The candidate pool of one slot: when a non-empty tag list yields a
non-empty tagged pool, use it; otherwise `candidates is recipes` and the
already-used ids are filtered out of the exclusion-filtered list. -/
def slotCandidates (cat : Catalog) (filteredRecipes : List Recipe)
    (exclusions : List Name) (preferred_tags_per_meal : Option (List (List Name)))
    (used : List ℕ) (meal_idx : ℕ) : List Recipe :=
  let tags := slotTags preferred_tags_per_meal meal_idx
  let tagged := if tags ≠ [] then taggedCandidates cat tags exclusions used else []
  if tags ≠ [] ∧ tagged ≠ [] then tagged
  else filteredRecipes.filter (fun r => !(used.contains r.id))

/-- One iteration of the slot-selection loop (lines 130-158) for `meal_idx`. -/
def selectSlot (cat : Catalog) (filteredRecipes : List Recipe) (exclusions : List Name)
    (preferred_tags_per_meal : Option (List (List Name)))
    (score : Recipe → WithTop ℚ) (st : SelState) (meal_idx : ℕ) : SelState :=
  match pickBest score
      (slotCandidates cat filteredRecipes exclusions preferred_tags_per_meal st.used meal_idx) with
  | none => st
  | some r => { chosen := st.chosen ++ [r], used := st.used ++ [r.id] }

/-- The whole slot-selection loop: `for meal_idx in range(meals_per_day)`. -/
def chooseMeals (cat : Catalog) (filteredRecipes : List Recipe) (exclusions : List Name)
    (preferred_tags_per_meal : Option (List (List Name)))
    (score : Recipe → WithTop ℚ) (meals_per_day : ℕ) : List Recipe :=
  ((List.range meals_per_day).foldl
    (selectSlot cat filteredRecipes exclusions preferred_tags_per_meal score)
    ⟨[], []⟩).chosen

/-- Build the recipe-typed `PlanItem` for a chosen recipe (lines 160-163). -/
def recipeItem (r : Recipe) : PlanItem :=
  let m := _calc_recipe_macros r 1
  { item_type := .recipe, item_id := r.id, servings := 1,
    calories := m.1, protein_g := m.2.1, carbs_g := m.2.2.1, fat_g := m.2.2.2,
    title := r.title }

/-- Source `macro_error(totals_now)` (lines 169-181): weighted macro deviations for the
macros that have targets, plus half the calorie deviation. -/
def macro_error (target_calories : ℚ) (mt : MacroTargets) (t : Totals) : ℚ :=
  macroDev 2 mt.protein_g t.protein_g +
  macroDev 1 mt.carbs_g t.carbs_g +
  macroDev (6/5) mt.fat_g t.fat_g +
  (1/2) * |target_calories - t.calories|

/-- The weighted error of the gap filler: `macro_error` in macro mode, plain
calorie deviation otherwise (lines 185, 217). -/
def gapError (target_calories : ℚ) (mtOpt : Option MacroTargets) (t : Totals) : ℚ :=
  match mtOpt with
  | some mt => macro_error target_calories mt t
  | none => |target_calories - t.calories|

/-- Accumulate one macro's candidate portion size (lines 196-203):
`grams = max(grams, deficit / per100 * 100)` when the deficit and the per-100
value are both positive. -/
def gramsStep (tgt : Option ℚ) (per100opt : Option ℚ) (current acc : ℚ) : ℚ :=
  match tgt with
  | none => acc
  | some t =>
      let deficit := t - current
      let per100 := per100opt.getD 0
      if deficit > 0 ∧ per100 > 0 then max acc (deficit / per100 * 100) else acc

/-- The heuristic portion size for one candidate product (lines 192-209). -/
def gramsForProduct (target_calories : ℚ) (mtOpt : Option MacroTargets)
    (totals : Totals) (gap_cal : ℚ) (p : Product) : ℚ :=
  match mtOpt with
  | some mt =>
      let g0 : ℚ := 0
      let g1 := gramsStep mt.protein_g p.protein_g_per_100 totals.protein_g g0
      let g2 := gramsStep mt.carbs_g p.carbs_g_per_100 totals.carbs_g g1
      let g3 := gramsStep mt.fat_g p.fat_g_per_100 totals.fat_g g2
      let g4 := if g3 ≤ 0 then 50 else g3
      min 300 (max 25 g4)
  | none =>
      if gap_cal > target_calories * (1/20) then
        min 200 (max 50 (gap_cal / (p.kcal_per_100.getD 0) * 100))
      else 100

/-- The `best_choice` tuple `(p_row, grams, kcal, p, c, f)` (line 220). -/
structure GapChoice where
  p : Product
  grams : ℚ
  kcal : ℚ
  protein : ℚ
  carbs : ℚ
  fat : ℚ
deriving DecidableEq, Repr

/-- Totals after adding a candidate's contribution (`test_totals`, lines 211-216). -/
def addChoice (t : Totals) (ch : GapChoice) : Totals :=
  { calories := t.calories + ch.kcal
    protein_g := t.protein_g + ch.protein
    carbs_g := t.carbs_g + ch.carbs
    fat_g := t.fat_g + ch.fat }

/-- The `(p_row, grams, kcal, p, c, f)` tuple a candidate product would commit. -/
def trialChoice (target_calories : ℚ) (mtOpt : Option MacroTargets)
    (totals : Totals) (gap_cal : ℚ) (p : Product) : GapChoice :=
  let grams := gramsForProduct target_calories mtOpt totals gap_cal p
  let m := _calc_product_macros p grams
  ⟨p, grams, m.1, m.2.1, m.2.2.1, m.2.2.2⟩

/-- The weighted error the totals would have after adding a candidate product's
trial portion (`err` at line 217). -/
def trialError (target_calories : ℚ) (mtOpt : Option MacroTargets)
    (totals : Totals) (gap_cal : ℚ) (p : Product) : ℚ :=
  gapError target_calories mtOpt
    (addChoice totals (trialChoice target_calories mtOpt totals gap_cal p))

/-- The loop body of the candidate scan: skip products without positive
calories per 100; a candidate replaces the best only when its trial error is
strictly smaller than the best error so far. -/
def gapStep (target_calories : ℚ) (mtOpt : Option MacroTargets) (totals : Totals)
    (gap_cal : ℚ) (acc : ℚ × Option GapChoice) (p : Product) : ℚ × Option GapChoice :=
  if p.kcal_per_100.getD 0 ≤ 0 then acc
  else
    let err := trialError target_calories mtOpt totals gap_cal p
    if err < acc.1 then (err, some (trialChoice target_calories mtOpt totals gap_cal p))
    else acc

/-- The candidate scan of one gap-filler iteration (lines 186-220): fold over
the products tracking `(best_err, best_choice)`. -/
def bestCandidate (target_calories : ℚ) (mtOpt : Option MacroTargets)
    (totals : Totals) (gap_cal : ℚ) (current_err : ℚ) (products : List Product) :
    ℚ × Option GapChoice :=
  products.foldl (gapStep target_calories mtOpt totals gap_cal) (current_err, none)

/-- Build the product-typed `PlanItem` appended on a commit (line 223). -/
def productItem (ch : GapChoice) : PlanItem :=
  { item_type := .product, item_id := ch.p.id, servings := ch.grams / 100,
    calories := ch.kcal, protein_g := ch.protein, carbs_g := ch.carbs,
    fat_g := ch.fat, title := ch.p.name }

/-- One gap-filler iteration (lines 183-226): `some` of the augmented item list
on a commit, `none` on the early `break`. -/
def gapIter (target_calories : ℚ) (mtOpt : Option MacroTargets)
    (products : List Product) (items : List PlanItem) : Option (List PlanItem) :=
  let totals := _totals items
  let gap_cal := target_calories - totals.calories
  let current_err := gapError target_calories mtOpt totals
  let best := bestCandidate target_calories mtOpt totals gap_cal current_err products
  match best.2 with
  | some ch => if best.1 < current_err then some (items ++ [productItem ch]) else none
  | none => none

/-- The whole gap-filling step (`if products: for _ in range(2): ...`). -/
def gapFill (target_calories : ℚ) (mtOpt : Option MacroTargets)
    (products : List Product) (items : List PlanItem) : List PlanItem :=
  if products = [] then items
  else
    match gapIter target_calories mtOpt products items with
    | none => items
    | some items1 =>
        match gapIter target_calories mtOpt products items1 with
        | none => items1
        | some items2 => items2

/-- The pure planning computation of `generate_daily_plan` (lines 62-226) with
an explicit gap-filler mode argument: the item list and final totals.
`mtOpt` below is the normalised `macro_targets` dict as seen by the scoring
and gap-filling code. -/
def planDay (cat : Catalog) (target_calories : ℚ) (meals_per_day : ℕ)
    (mtOpt : Option MacroTargets) (exclusions : List Name)
    (preferred_tags_per_meal : Option (List (List Name))) : List PlanItem × Totals :=
  let recipes := cat.recipes.filter (fun r => !(_filter_by_exclusions r.title exclusions))
  let products := cat.products.filter (fun p => !(_filter_by_exclusions p.name exclusions))
  let per_meal_target := target_calories / (max 1 meals_per_day : ℕ)
  let pm : Option PerMealMacros := mtOpt.map (fun mt => perMealMacros mt meals_per_day)
  let score := score_recipe per_meal_target pm
  let chosen := chooseMeals cat recipes exclusions preferred_tags_per_meal score meals_per_day
  let items := chosen.map recipeItem
  let items2 := gapFill target_calories mtOpt products items
  (items2, _totals items2)

/-- The default `macro_split` parameter `(0.3, 0.35, 0.35)`; no caller of
`generate_daily_plan` in the repository passes a different split. -/
def defaultSplit : ℚ × ℚ × ℚ := (3/10, 7/20, 7/20)

/-- The in-memory result of `generate_daily_plan` before persistence: the
normalisation of `macro_targets` always succeeds (the split is a well-typed
triple), so scoring and gap filling run with the derived full targets. -/
def generateDailyItems (cat : Catalog) (target_calories : ℚ) (meals_per_day : ℕ)
    (macro_targets : Option MacroTargets) (exclusions : List Name)
    (preferred_tags_per_meal : Option (List (List Name))) : List PlanItem × Totals :=
  let mt := deriveMacroTargets target_calories defaultSplit macro_targets
  planDay cat target_calories meals_per_day (some mt) exclusions preferred_tags_per_meal

/-! ## Persistence layer (db.py) -/

/-- The structured content of `macros_json` (save_meal_plan lines 341-360):
a target block with the calories and whichever gram targets are present,
the achieved totals, and the optional slot labels (an empty list is falsy in
Python and stores no `slots` key). -/
structure MacrosObj where
  target_calories : ℚ
  target_protein : Option ℚ
  target_carbs : Option ℚ
  target_fat : Option ℚ
  actual : Totals
  slots : Option (List Name)
deriving DecidableEq, Repr

/-- Build the macros object from the requested targets, totals and slot names. -/
def mkMacrosObj (target_calories : ℚ) (mtOpt : Option MacroTargets)
    (totals : Totals) (slots : Option (List Name)) : MacrosObj :=
  { target_calories := target_calories
    target_protein := mtOpt.bind (·.protein_g)
    target_carbs := mtOpt.bind (·.carbs_g)
    target_fat := mtOpt.bind (·.fat_g)
    actual := totals
    slots := slots.bind (fun l => if l = [] then none else some l) }

/-- A row of the `meal_plans` table. -/
structure PlanRow where
  id : ℕ
  date : Name
  target_calories : ℚ
  meals_per_day : ℕ
  macros : MacrosObj
  total_calories : ℚ
  total_protein : ℚ
  total_carbs : ℚ
  total_fat : ℚ
deriving DecidableEq, Repr

/-- A row of the `meal_plan_items` table. -/
structure ItemRow where
  id : ℕ
  meal_plan_id : ℕ
  meal_index : ℕ
  item_type : ItemType
  item_id : ℕ
  servings : ℚ
  notes : Option Name
deriving DecidableEq, Repr

/-- An item dict passed to `save_meal_plan` (item_type/item_id/servings/notes). -/
structure ItemSpec where
  item_type : ItemType
  item_id : ℕ
  servings : ℚ
  notes : Option Name
deriving DecidableEq, Repr

/-- The meal-plan tables of the store.  The autoincrement counters start at 1
and grow by one per insert, as SQLite rowids do on these tables. -/
structure DBState where
  plans : List PlanRow
  plan_seq : ℕ
  items : List ItemRow
  item_seq : ℕ
deriving DecidableEq, Repr

def DBState.empty : DBState := ⟨[], 1, [], 1⟩

/-- A connection: the store plus `sqlite3_last_insert_rowid` (0 on a fresh
connection; set by successful inserts; unchanged when an upsert takes the
DO UPDATE path, and unchanged by DELETE). -/
structure Conn where
  db : DBState
  last_insert_rowid : ℕ
deriving DecidableEq, Repr

/-- Open a fresh connection on a store. -/
def Conn.fresh (db : DBState) : Conn := ⟨db, 0⟩

/-- The header fields written by the `meal_plans` upsert. -/
structure PlanHeader where
  date : Name
  target_calories : ℚ
  meals_per_day : ℕ
  macros : MacrosObj
  total_calories : ℚ
  total_protein : ℚ
  total_carbs : ℚ
  total_fat : ℚ
deriving DecidableEq, Repr

/-- SQL `INSERT INTO meal_plans ... ON CONFLICT(date) DO UPDATE SET ...`
(lines 368-392): update the existing row for the date in place (its id and the
connection's last-insert rowid unchanged), or insert a fresh row. -/
def upsertPlan (h : PlanHeader) (c : Conn) : Conn :=
  if c.db.plans.any (fun p => p.date == h.date) then
    { c with db := { c.db with plans := c.db.plans.map (fun p =>
        if p.date == h.date then
          { p with target_calories := h.target_calories,
                   meals_per_day := h.meals_per_day, macros := h.macros,
                   total_calories := h.total_calories,
                   total_protein := h.total_protein,
                   total_carbs := h.total_carbs, total_fat := h.total_fat }
        else p) } }
  else
    let row : PlanRow :=
      { id := c.db.plan_seq, date := h.date, target_calories := h.target_calories,
        meals_per_day := h.meals_per_day, macros := h.macros,
        total_calories := h.total_calories, total_protein := h.total_protein,
        total_carbs := h.total_carbs, total_fat := h.total_fat }
    { db := { c.db with plans := c.db.plans ++ [row], plan_seq := c.db.plan_seq + 1 },
      last_insert_rowid := c.db.plan_seq }

/-- Source `plan_id = cur.lastrowid or SELECT id FROM meal_plans WHERE date=?`
(line 393): Python's `cursor.lastrowid` after the upsert is the connection's
last-insert rowid, which is stale (a rowid of whatever was inserted last on
this connection) when the upsert took the update path; the date lookup only
runs when that value is 0. -/
def resolvePlanId (date : Name) (c : Conn) : ℕ :=
  if c.last_insert_rowid ≠ 0 then c.last_insert_rowid
  else ((c.db.plans.find? (fun p => p.date == date)).map PlanRow.id).getD 0

/-- SQL `DELETE FROM meal_plan_items WHERE meal_plan_id=?` (line 395). -/
def deleteItems (plan_id : ℕ) (c : Conn) : Conn :=
  { c with db := { c.db with items := c.db.items.filter (fun i => i.meal_plan_id ≠ plan_id) } }

/-- SQL `INSERT INTO meal_plan_items ...` (lines 396-410) for one item. -/
def insertItem (plan_id meal_index : ℕ) (it : ItemSpec) (c : Conn) : Conn :=
  let row : ItemRow :=
    { id := c.db.item_seq, meal_plan_id := plan_id, meal_index := meal_index,
      item_type := it.item_type, item_id := it.item_id,
      servings := it.servings, notes := it.notes }
  { db := { c.db with items := c.db.items ++ [row], item_seq := c.db.item_seq + 1 },
    last_insert_rowid := c.db.item_seq }

/-- Errors a write statement may raise: a transient busy/locked condition
(retried) or any other OperationalError (re-raised at once). -/
inductive SaveErr where
  | busy
  | other
deriving DecidableEq, Repr

/-- A failure schedule for one attempt: step 0 is the header upsert, step 1 the
item delete, step `2+k` the insert of item `k`.  `some e` makes that statement
raise `e` (leaving the effects of the earlier statements in place — SQLite
rolls back only the failing statement, and the code never rolls back the
transaction). -/
abbrev AttemptSched := ℕ → Option SaveErr

/-- The item-insert loop of one attempt. -/
def insertItemsLoop (sched : AttemptSched) (plan_id : ℕ) :
    ℕ → List ItemSpec → Conn → Option SaveErr × Conn
  | _, [], c => (none, c)
  | idx, it :: rest, c =>
      match sched (2 + idx) with
      | some e => (some e, c)
      | none => insertItemsLoop sched plan_id (idx + 1) rest (insertItem plan_id idx it c)

/-- One attempt of the `try:` block of `save_meal_plan` (lines 366-411). -/
def saveAttempt (sched : AttemptSched) (h : PlanHeader) (items : List ItemSpec)
    (c : Conn) : Except SaveErr ℕ × Conn :=
  match sched 0 with
  | some e => (.error e, c)
  | none =>
      let c1 := upsertPlan h c
      let plan_id := resolvePlanId h.date c1
      match sched 1 with
      | some e => (.error e, c1)
      | none =>
          let c2 := deleteItems plan_id c1
          match insertItemsLoop sched plan_id 0 items c2 with
          | (some e, c3) => (.error e, c3)
          | (none, c3) => (.ok plan_id, c3)

/-- The retry loop of `save_meal_plan` (lines 362-422): up to 8 attempts,
retrying on busy/locked, re-raising other errors immediately, and raising the
last busy error when the attempts are exhausted.  The backoff sleeps do not
affect the store.  `sched a` is the failure schedule of attempt `a`. -/
def saveLoop (sched : ℕ → AttemptSched) (h : PlanHeader) (items : List ItemSpec) :
    ℕ → ℕ → Conn → Except SaveErr ℕ × Conn
  | _, 0, c => (.error .busy, c)
  | attempt, fuel + 1, c =>
      match saveAttempt (sched attempt) h items c with
      | (.ok pid, c1) => (.ok pid, c1)
      | (.error .busy, c1) => saveLoop sched h items (attempt + 1) fuel c1
      | (.error .other, c1) => (.error .other, c1)

/-- Source `save_meal_plan` under a failure schedule. -/
def save_meal_plan (sched : ℕ → AttemptSched) (date : Name) (target_calories : ℚ)
    (meals_per_day : ℕ) (totals : Totals) (items : List ItemSpec)
    (mtOpt : Option MacroTargets) (slots : Option (List Name)) (c : Conn) :
    Except SaveErr ℕ × Conn :=
  let h : PlanHeader :=
    { date := date, target_calories := target_calories,
      meals_per_day := meals_per_day,
      macros := mkMacrosObj target_calories mtOpt totals slots,
      total_calories := totals.calories, total_protein := totals.protein_g,
      total_carbs := totals.carbs_g, total_fat := totals.fat_g }
  saveLoop sched h items 0 8 c

/-- The all-success schedule (no write ever fails). -/
def noFail : ℕ → AttemptSched := fun _ _ => none

/-- Source `generate_daily_plan` end to end (lines 51-243): plan the day, then persist
via `save_meal_plan` on the given connection. -/
def generate_daily_plan (cat : Catalog) (target_calories : ℚ) (meals_per_day : ℕ)
    (macro_targets : Option MacroTargets) (exclusions : List Name)
    (preferred_tags_per_meal : Option (List (List Name))) (date : Name)
    (slot_names : Option (List Name)) (c : Conn) :
    (Except SaveErr ℕ × Conn) × List PlanItem × Totals :=
  let mt := deriveMacroTargets target_calories defaultSplit macro_targets
  let res := planDay cat target_calories meals_per_day (some mt) exclusions
    preferred_tags_per_meal
  let items := res.1
  let totals := res.2
  let specs := items.map (fun i =>
    ({ item_type := i.item_type, item_id := i.item_id, servings := i.servings,
       notes := some i.title } : ItemSpec))
  (save_meal_plan noFail date target_calories meals_per_day totals specs (some mt)
    slot_names c, items, totals)

/-! ## Plan mutation routes (web/routes.py) -/

/-- The per-item contribution summed by `_recalculate_plan_totals`
(routes.py lines 348-372): catalog values times the item's servings, zero when
the referenced catalog row is missing. -/
def recalcContribution (cat : Catalog) (it : ItemRow) : ℚ × ℚ × ℚ × ℚ :=
  match it.item_type with
  | .recipe =>
      match cat.recipes.find? (fun r => r.id == it.item_id) with
      | none => (0, 0, 0, 0)
      | some r =>
          ((r.kcal_per_serving.getD 0) * it.servings,
           (r.protein_g_per_serving.getD 0) * it.servings,
           (r.carbs_g_per_serving.getD 0) * it.servings,
           (r.fat_g_per_serving.getD 0) * it.servings)
  | .product =>
      match cat.products.find? (fun p => p.id == it.item_id) with
      | none => (0, 0, 0, 0)
      | some p =>
          ((p.kcal_per_100.getD 0) * it.servings,
           (p.protein_g_per_100.getD 0) * it.servings,
           (p.carbs_g_per_100.getD 0) * it.servings,
           (p.fat_g_per_100.getD 0) * it.servings)

/-- Source `_recalculate_plan_totals(conn, plan_id)` (routes.py lines 348-379):
re-derive the four totals of the plan from its current item rows and write them
to the `meal_plans` row (a no-op when no row has that id). -/
def _recalculate_plan_totals (cat : Catalog) (plan_id : ℕ) (db : DBState) : DBState :=
  let plan_items := db.items.filter (fun i => i.meal_plan_id == plan_id)
  let total_kcal := (plan_items.map (fun i => (recalcContribution cat i).1)).sum
  let total_p := (plan_items.map (fun i => (recalcContribution cat i).2.1)).sum
  let total_c := (plan_items.map (fun i => (recalcContribution cat i).2.2.1)).sum
  let total_f := (plan_items.map (fun i => (recalcContribution cat i).2.2.2)).sum
  { db with plans := db.plans.map (fun p =>
      if p.id == plan_id then
        { p with total_calories := total_kcal, total_protein := total_p,
                 total_carbs := total_c, total_fat := total_f }
      else p) }

/-- Outcomes of the mutation routes that matter here. -/
inductive RouteResult where
  | ok
  | errDateMissing
  | errItemNotFound
  | errPlanNotFound
deriving DecidableEq, Repr

/-- Source `update_servings(item_id)` (routes.py lines 381-402): write the new serving
value (a no-op when the item id has no row), then look the item up; a missing
item flashes an error, otherwise the parent plan's totals are recomputed. -/
def update_servings (cat : Catalog) (item_id : ℕ) (servings : ℚ)
    (date : Option Name) (db : DBState) : RouteResult × DBState :=
  match date with
  | none => (.errDateMissing, db)
  | some _ =>
      let db1 := { db with items := db.items.map (fun (r : ItemRow) =>
        if r.id == item_id then { r with servings := servings } else r) }
      match db1.items.find? (fun r => r.id == item_id) with
      | none => (.errItemNotFound, db1)
      | some row => (.ok, _recalculate_plan_totals cat row.meal_plan_id db1)

/-- The POST branch of `alternatives(item_id, plan_id)` (routes.py lines
750-762): rewrite the item's recipe reference unconditionally, recompute the
plan's totals, then read the plan's date for the redirect (a missing plan row
only fails at that last read, after the mutation). -/
def substitute_item (cat : Catalog) (item_id new_recipe_id plan_id : ℕ)
    (db : DBState) : RouteResult × DBState :=
  let db1 := { db with items := db.items.map (fun r =>
    if r.id == item_id then { r with item_id := new_recipe_id } else r) }
  let db2 := _recalculate_plan_totals cat plan_id db1
  match db2.plans.find? (fun p => p.id == plan_id) with
  | none => (.errPlanNotFound, db2)
  | some _ => (.ok, db2)

/-- The tag rows of a recipe id, in table order. -/
def tagsOf (cat : Catalog) (rid : ℕ) : List Name :=
  ((cat.recipe_tags.filter (fun t => t.recipe_id == rid)).map TagRow.tag)

/-- The ranking key of the alternatives query: the number of the candidate's
tag rows whose tag is (exactly) one of the original's tag names —
`count(r.id)` over the join with `recipe_tags`. -/
def matchingTagRows (cat : Catalog) (tag_names : List Name) (r : Recipe) : ℕ :=
  cat.recipe_tags.countP (fun t => t.recipe_id == r.id && tag_names.contains t.tag)

/-- Stable insertion into a list sorted by descending count. -/
def insertDesc (cnt : Recipe → ℕ) (r : Recipe) : List Recipe → List Recipe
  | [] => [r]
  | x :: xs => if cnt x ≤ cnt r then r :: x :: xs else x :: insertDesc cnt r xs

/-- Stable sort by descending count (models the query's ORDER BY ... DESC;
ties keep the underlying table order). -/
def sortDesc (cnt : Recipe → ℕ) : List Recipe → List Recipe
  | [] => []
  | x :: xs => insertDesc cnt x (sortDesc cnt xs)

/-- The GET branch of `alternatives` from the resolved original recipe
(routes.py lines 773-788): no tags means no alternatives; otherwise the
candidates are the other recipes with at least one tag row matching one of the
original's tag names, ordered by the number of such rows descending, first 10. -/
def rank_substitutes (cat : Catalog) (orig : Recipe) : List Recipe :=
  let tag_names := tagsOf cat orig.id
  if tag_names = [] then []
  else
    let cands := cat.recipes.filter (fun r =>
      r.id ≠ orig.id ∧ 0 < matchingTagRows cat tag_names r)
    (sortDesc (matchingTagRows cat tag_names) cands).take 10

/-! ## Definitions written from the specification's words -/

/-- Modelled from the spec: an item's contribution to the totals invariant —
"recipe per-serving macros times item.servings for recipe items, product
per-100 macros times item.servings for product items" (a reference whose
catalog row is missing contributes nothing). -/
def specContribution (cat : Catalog) (it : ItemRow) : Totals :=
  match it.item_type with
  | .recipe =>
      match cat.recipes.find? (fun r => r.id == it.item_id) with
      | none => ⟨0, 0, 0, 0⟩
      | some r =>
          ⟨(r.kcal_per_serving.getD 0) * it.servings,
           (r.protein_g_per_serving.getD 0) * it.servings,
           (r.carbs_g_per_serving.getD 0) * it.servings,
           (r.fat_g_per_serving.getD 0) * it.servings⟩
  | .product =>
      match cat.products.find? (fun p => p.id == it.item_id) with
      | none => ⟨0, 0, 0, 0⟩
      | some p =>
          ⟨(p.kcal_per_100.getD 0) * it.servings,
           (p.protein_g_per_100.getD 0) * it.servings,
           (p.carbs_g_per_100.getD 0) * it.servings,
           (p.fat_g_per_100.getD 0) * it.servings⟩

/-- The spec's wording of the slot score: `|per_meal_target_calories − r.calories|`
(infinite if `r.calories` is zero or absent), plus
`2.0·|protein_target − r.protein| + 1.0·|carbs_target − r.carbs| +
1.2·|fat_target − r.fat|` for each macro whose target is present. -/
def specScore (per_meal_target : ℚ) (pm : Option PerMealMacros) (r : Recipe) :
    WithTop ℚ :=
  let base : WithTop ℚ :=
    match r.kcal_per_serving with
    | none => ⊤
    | some kcal => if kcal = 0 then ⊤ else (|per_meal_target - kcal| : ℚ)
  match pm with
  | none => base
  | some t =>
      base +
        ((match t.protein_g with
          | none => 0
          | some p_t => 2 * |p_t - r.protein_g_per_serving.getD 0|) +
         (match t.carbs_g with
          | none => 0
          | some c_t => 1 * |c_t - r.carbs_g_per_serving.getD 0|) +
         (match t.fat_g with
          | none => 0
          | some f_t => (6/5) * |f_t - r.fat_g_per_serving.getD 0|) : ℚ)

/-- The spec's wording of the gap-filler weighted error:
`0.5·|calorie gap| + 2.0·|protein gap| + 1.0·|carbs gap| + 1.2·|fat gap|`
over the macros that have targets in macro mode, `|calorie gap|` otherwise. -/
def specWeightedError (target_calories : ℚ) (mtOpt : Option MacroTargets)
    (t : Totals) : ℚ :=
  match mtOpt with
  | none => |target_calories - t.calories|
  | some mt =>
      (1/2) * |target_calories - t.calories| +
      (match mt.protein_g with
       | none => 0
       | some tg => 2 * |tg - t.protein_g|) +
      (match mt.carbs_g with
       | none => 0
       | some tg => 1 * |tg - t.carbs_g|) +
      (match mt.fat_g with
       | none => 0
       | some tg => (6/5) * |tg - t.fat_g|)

/-- Modelled from the spec: the "count of shared tags" between two recipes —
the number of distinct tag names the two recipes have in common. -/
def specSharedTagCount (cat : Catalog) (a b : ℕ) : ℕ :=
  (((tagsOf cat b).dedup).filter (fun t => (tagsOf cat a).contains t)).length

/-- Modelled from the spec: the contribution of an in-memory plan item, looked
up in the catalog ("recipe per-serving macros times item.servings for recipe
items, product per-100 macros times item.servings for product items"). -/
def specItemContribution (cat : Catalog) (it : PlanItem) : Totals :=
  match it.item_type with
  | .recipe =>
      match cat.recipes.find? (fun r => r.id == it.item_id) with
      | none => ⟨0, 0, 0, 0⟩
      | some r =>
          ⟨(r.kcal_per_serving.getD 0) * it.servings,
           (r.protein_g_per_serving.getD 0) * it.servings,
           (r.carbs_g_per_serving.getD 0) * it.servings,
           (r.fat_g_per_serving.getD 0) * it.servings⟩
  | .product =>
      match cat.products.find? (fun p => p.id == it.item_id) with
      | none => ⟨0, 0, 0, 0⟩
      | some p =>
          ⟨(p.kcal_per_100.getD 0) * it.servings,
           (p.protein_g_per_100.getD 0) * it.servings,
           (p.carbs_g_per_100.getD 0) * it.servings,
           (p.fat_g_per_100.getD 0) * it.servings⟩

/-- The selection-loop invariant: the used-id list mirrors the chosen recipes,
stays duplicate-free, and every chosen recipe is a non-excluded catalog row. -/
def SelInv (cat : Catalog) (excl : List Name) (st : SelState) : Prop :=
  st.used = st.chosen.map Recipe.id ∧ st.used.Nodup ∧
    ∀ r ∈ st.chosen, r ∈ cat.recipes ∧ _filter_by_exclusions r.title excl = false

/-- Invariant carried by the candidate scan: the best error never exceeds the
pre-iteration error, and a recorded best choice is the trial choice of some
product, recorded together with its exact trial error, strictly below the
pre-iteration error. -/
def ScanInv (tc : ℚ) (mt : Option MacroTargets) (totals : Totals) (gap ce : ℚ)
    (S : List Product) (acc : ℚ × Option GapChoice) : Prop :=
  acc.1 ≤ ce ∧
    ∀ ch, acc.2 = some ch → acc.1 < ce ∧
      acc.1 = gapError tc mt (addChoice totals ch) ∧
      ∃ p ∈ S, ch = trialChoice tc mt totals gap p

/-- An item produced by the gap filler: a product-typed item whose stored macro
fields are the product's per-100 values times the stored servings. -/
def fromProduct (prods : List Product) (it : PlanItem) : Prop :=
  it.item_type = .product ∧ ∃ p ∈ prods,
    it.item_id = p.id ∧ it.title = p.name ∧
    it.calories = p.kcal_per_100.getD 0 * it.servings ∧
    it.protein_g = p.protein_g_per_100.getD 0 * it.servings ∧
    it.carbs_g = p.carbs_g_per_100.getD 0 * it.servings ∧
    it.fat_g = p.fat_g_per_100.getD 0 * it.servings

/-- One gap-filler iteration as a total function: the augmented items on a
commit, the unchanged items on the early break. -/
def gapFillOnce (tc : ℚ) (mt : Option MacroTargets) (prods : List Product)
    (items : List PlanItem) : List PlanItem :=
  match gapIter tc mt prods items with
  | none => items
  | some items1 => items1

deriving instance DecidableEq for Except

/-- C2 scenario: two direct saves for the same date on one connection, the
first with two items, the second with one. -/
def c2res1 : Except SaveErr ℕ × Conn :=
  save_meal_plan noFail ['d'] 2000 3 ⟨500, 30, 20, 10⟩
    [⟨.recipe, 10, 1, none⟩, ⟨.recipe, 11, 1, none⟩] none none
    (Conn.fresh DBState.empty)

/-- The second save of the C2 scenario. -/
def c2res2 : Except SaveErr ℕ × Conn :=
  save_meal_plan noFail ['d'] 2100 3 ⟨700, 40, 30, 20⟩
    [⟨.recipe, 12, 1, none⟩] none none c2res1.2

/-- C3 scenario: a stored plan with one item, then a save for the same date on
a fresh connection whose item insert raises busy on every attempt. -/
def c3db0 : DBState :=
  ⟨[⟨1, ['d'], 2000, 3, ⟨2000, none, none, none, ⟨500, 30, 20, 10⟩, none⟩,
      500, 30, 20, 10⟩], 2,
   [⟨1, 1, 0, .recipe, 7, 1, none⟩], 2⟩

/-- The failed save of the C3 scenario. -/
def c3res : Except SaveErr ℕ × Conn :=
  save_meal_plan (fun _ st => if st = 2 then some .busy else none)
    ['d'] 1800 3 ⟨600, 45, 50, 15⟩ [⟨.recipe, 8, 1, none⟩] none none
    (Conn.fresh c3db0)

/-- C1 scenario catalog: three recipes, no products, no tags. -/
def c1cat : Catalog :=
  ⟨[⟨1, ['a'], some 500, some 0, some 0, some 0⟩,
    ⟨2, ['b'], some 700, some 0, some 0, some 0⟩,
    ⟨3, ['c'], some 300, some 0, some 0, some 0⟩], [], []⟩

/-- First generation of the C1 scenario (picks recipes 1 and 2). -/
def c1gen1 : (Except SaveErr ℕ × Conn) × List PlanItem × Totals :=
  generate_daily_plan c1cat 1200 2 none [] none ['d'] none
    (Conn.fresh DBState.empty)

/-- Regeneration for the same date on the same connection with recipe 'a'
excluded (picks recipe 2 only). -/
def c1gen2 : (Except SaveErr ℕ × Conn) × List PlanItem × Totals :=
  generate_daily_plan c1cat 600 1 none [['a']] none ['d'] none c1gen1.1.2

/-- C8 scenario: a one-recipe catalog, one plan with one item referencing it;
recipe id 99 does not exist. -/
def c8cat : Catalog := ⟨[⟨1, ['a'], some 400, some 30, some 20, some 10⟩], [], []⟩

/-- The C8 store before the substitution. -/
def c8db : DBState :=
  ⟨[⟨1, ['d'], 2000, 3, ⟨2000, none, none, none, ⟨400, 30, 20, 10⟩, none⟩,
      400, 30, 20, 10⟩], 2,
   [⟨1, 1, 0, .recipe, 1, 1, none⟩], 2⟩

/-- The substitution with a nonexistent replacement recipe id. -/
def c8res : RouteResult × DBState := substitute_item c8cat 1 99 1 c8db

/-- C9 scenario: the original recipe (id 1) has tags v and l; candidate 2 has
three duplicate rows of tag v; candidate 3 has tags v and l. -/
def c9orig : Recipe := ⟨1, ['o'], some 100, none, none, none⟩

/-- The C9 catalog with duplicate tag rows on recipe 2. -/
def c9cat : Catalog :=
  ⟨[c9orig, ⟨2, ['a'], some 100, none, none, none⟩,
    ⟨3, ['b'], some 100, none, none, none⟩],
   [⟨1, ['v']⟩, ⟨1, ['l']⟩, ⟨2, ['v']⟩, ⟨2, ['v']⟩, ⟨2, ['v']⟩,
    ⟨3, ['v']⟩, ⟨3, ['l']⟩], []⟩

/-- The pool of the C6 witness. -/
def c6pool : List Recipe :=
  [⟨1, ['a'], some 500, none, none, none⟩, ⟨2, ['b'], some 800, none, none, none⟩]

/-- The candidate product of the C7 witness. -/
def c7prod : Product := ⟨5, ['p'], some 50, none, none, none⟩

/-! ## Helper lemmas -/

/-- The running best of the `pickBest` fold is the seed or one of the inputs. -/
lemma foldBest_eq_or_mem (score : Recipe → WithTop ℚ) :
    ∀ (xs : List Recipe) (b : Recipe),
      xs.foldl (fun c x => if score x < score c then x else c) b = b ∨
      xs.foldl (fun c x => if score x < score c then x else c) b ∈ xs := by
  intro xs
  induction xs with
  | nil => exact fun b => Or.inl rfl
  | cons x xs ih =>
      intro b
      rw [List.foldl_cons]
      rcases ih (if score x < score b then x else b) with h | h
      · rw [h]
        by_cases hx : score x < score b
        · simp [hx]
        · simp [hx]
      · exact Or.inr (List.mem_cons_of_mem _ h)

/-- The running best of the `pickBest` fold scores no worse than the seed and
than every input. -/
lemma foldBest_le (score : Recipe → WithTop ℚ) :
    ∀ (xs : List Recipe) (b : Recipe),
      score (xs.foldl (fun c x => if score x < score c then x else c) b) ≤ score b ∧
      ∀ y ∈ xs,
        score (xs.foldl (fun c x => if score x < score c then x else c) b) ≤ score y := by
  intro xs
  induction xs with
  | nil => exact fun b => ⟨le_refl _, by simp⟩
  | cons x xs ih =>
      intro b
      rw [List.foldl_cons]
      have hseed : score (if score x < score b then x else b) ≤ score b ∧
          score (if score x < score b then x else b) ≤ score x := by
        by_cases hx : score x < score b
        · simp [hx, le_of_lt hx]
        · simp [hx, le_of_not_lt hx]
      obtain ⟨h1, h2⟩ := ih (if score x < score b then x else b)
      refine ⟨h1.trans hseed.1, ?_⟩
      intro y hy
      rcases List.mem_cons.mp hy with rfl | hy
      · exact h1.trans hseed.2
      · exact h2 y hy

/-- Stability of the `pickBest` fold: the result is the seed, or an input that
strictly beats the seed and everything before it. -/
lemma foldBest_first (score : Recipe → WithTop ℚ) :
    ∀ (xs : List Recipe) (b m : Recipe),
      xs.foldl (fun c x => if score x < score c then x else c) b = m →
      m = b ∨
      ∃ l1 l2, xs = l1 ++ m :: l2 ∧ score m < score b ∧
        ∀ q ∈ l1, score m < score q := by
  intro xs
  induction xs with
  | nil => exact fun b m h => Or.inl h.symm
  | cons x xs ih =>
      intro b m h
      rw [List.foldl_cons] at h
      by_cases hx : score x < score b
      · rw [if_pos hx] at h
        rcases ih x m h with rfl | ⟨l1, l2, hsplit, hlt, hall⟩
        · exact Or.inr ⟨[], xs, rfl, hx, by simp⟩
        · refine Or.inr ⟨x :: l1, l2, by rw [hsplit]; rfl, lt_trans hlt hx, ?_⟩
          intro q hq
          rcases List.mem_cons.mp hq with rfl | hq
          · exact hlt
          · exact hall q hq
      · rw [if_neg hx] at h
        rcases ih b m h with h0 | ⟨l1, l2, hsplit, hlt, hall⟩
        · exact Or.inl h0
        · refine Or.inr ⟨x :: l1, l2, by rw [hsplit]; rfl, hlt, ?_⟩
          intro q hq
          rcases List.mem_cons.mp hq with rfl | hq
          · exact lt_of_lt_of_le hlt (le_of_not_lt hx)
          · exact hall q hq

/-- A picked recipe belongs to the pool. -/
lemma pickBest_mem {score : Recipe → WithTop ℚ} {pool : List Recipe} {r : Recipe}
    (h : pickBest score pool = some r) : r ∈ pool := by
  cases pool with
  | nil => simp [pickBest] at h
  | cons x xs =>
      simp only [pickBest, Option.some.injEq] at h
      rcases foldBest_eq_or_mem score xs x with h0 | h0
      · rw [← h, h0]; exact List.mem_cons_self x xs
      · rw [← h]; exact List.mem_cons_of_mem _ h0

/-- A picked recipe has minimal score among the pool. -/
lemma pickBest_min {score : Recipe → WithTop ℚ} {pool : List Recipe} {r : Recipe}
    (h : pickBest score pool = some r) : ∀ q ∈ pool, score r ≤ score q := by
  cases pool with
  | nil => simp [pickBest] at h
  | cons x xs =>
      simp only [pickBest, Option.some.injEq] at h
      obtain ⟨h1, h2⟩ := foldBest_le score xs x
      intro q hq
      rcases List.mem_cons.mp hq with rfl | hq
      · rw [← h]; exact h1
      · rw [← h]; exact h2 q hq

/-- A picked recipe is the earliest minimum of the pool: everything before it
in the pool scores strictly worse. -/
lemma pickBest_earliest {score : Recipe → WithTop ℚ} {pool : List Recipe} {r : Recipe}
    (h : pickBest score pool = some r) :
    ∃ l1 l2, pool = l1 ++ r :: l2 ∧ ∀ q ∈ l1, score r < score q := by
  cases pool with
  | nil => simp [pickBest] at h
  | cons x xs =>
      simp only [pickBest, Option.some.injEq] at h
      rcases foldBest_first score xs x r h with rfl | ⟨l1, l2, hsplit, hlt, hall⟩
      · exact ⟨[], xs, rfl, by simp⟩
      · refine ⟨x :: l1, l2, by rw [hsplit]; rfl, ?_⟩
        intro q hq
        rcases List.mem_cons.mp hq with rfl | hq
        · exact hlt
        · exact hall q hq

/-- Membership in a slot's candidate pool: the recipe is not yet used and it
comes either from the base pool or from the tagged query (which re-applies the
exclusion filter on full catalog rows). -/
lemma mem_slotCandidates {cat : Catalog} {fr : List Recipe} {excl : List Name}
    {pref : Option (List (List Name))} {used : List ℕ} {i : ℕ} {r : Recipe}
    (h : r ∈ slotCandidates cat fr excl pref used i) :
    r.id ∉ used ∧
      (r ∈ fr ∨ (r ∈ cat.recipes ∧ _filter_by_exclusions r.title excl = false)) := by
  simp only [slotCandidates] at h
  by_cases ht : slotTags pref i = []
  · simp only [ht, ne_eq, not_true_eq_false, false_and, if_false,
      not_false_eq_true, ite_self, false_or] at h
    simp only [List.mem_filter, Bool.not_eq_true'] at h
    exact ⟨by simpa using h.2, Or.inl h.1⟩
  · by_cases htag : taggedCandidates cat (slotTags pref i) excl used = []
    · simp only [ht, htag, ne_eq, not_false_eq_true, if_true, not_true_eq_false,
        and_false, if_false] at h
      simp only [List.mem_filter, Bool.not_eq_true'] at h
      exact ⟨by simpa using h.2, Or.inl h.1⟩
    · simp only [ht, htag, ne_eq, not_false_eq_true, if_true, and_true,
        and_self, if_true] at h
      simp only [taggedCandidates, List.mem_filter, Bool.and_eq_true,
        Bool.not_eq_true'] at h
      obtain ⟨⟨hmem, -⟩, hex, hcon⟩ := h
      exact ⟨by simpa using hcon, Or.inr ⟨hmem, hex⟩⟩

/-- One slot iteration preserves the selection invariant. -/
lemma selectSlot_inv {cat : Catalog} {excl : List Name} {fr : List Recipe}
    (hfr : ∀ r ∈ fr, r ∈ cat.recipes ∧ _filter_by_exclusions r.title excl = false)
    (pref : Option (List (List Name))) (score : Recipe → WithTop ℚ)
    {st : SelState} (hst : SelInv cat excl st) (i : ℕ) :
    SelInv cat excl (selectSlot cat fr excl pref score st i) := by
  unfold selectSlot
  cases hp : pickBest score (slotCandidates cat fr excl pref st.used i) with
  | none => exact hst
  | some r =>
      obtain ⟨hid, hsrc⟩ := mem_slotCandidates (pickBest_mem hp)
      obtain ⟨h1, h2, h3⟩ := hst
      refine ⟨by simp [h1], ?_, ?_⟩
      · simp only [List.nodup_append, List.nodup_cons, List.not_mem_nil,
          not_false_iff, List.nodup_nil, and_true, true_and]
        refine ⟨h2, ?_⟩
        intro a ha hmem
        rcases List.mem_singleton.mp hmem with rfl
        exact hid ha
      · intro q hq
        rcases List.mem_append.mp hq with hq | hq
        · exact h3 q hq
        · rcases List.mem_singleton.mp hq with rfl
          rcases hsrc with hfr' | hcat
          · exact hfr q hfr'
          · exact hcat

/-- The whole selection loop preserves the invariant. -/
lemma foldl_selectSlot_inv {cat : Catalog} {excl : List Name} {fr : List Recipe}
    (hfr : ∀ r ∈ fr, r ∈ cat.recipes ∧ _filter_by_exclusions r.title excl = false)
    (pref : Option (List (List Name))) (score : Recipe → WithTop ℚ) :
    ∀ (idxs : List ℕ) (st : SelState), SelInv cat excl st →
      SelInv cat excl (idxs.foldl (selectSlot cat fr excl pref score) st) := by
  intro idxs
  induction idxs with
  | nil => exact fun st h => h
  | cons i is ih => exact fun st h => ih _ (selectSlot_inv hfr pref score h i)

/-- The chosen recipes of a run: duplicate-free ids, all non-excluded catalog
rows. -/
lemma chooseMeals_inv {cat : Catalog} {excl : List Name} {fr : List Recipe}
    (hfr : ∀ r ∈ fr, r ∈ cat.recipes ∧ _filter_by_exclusions r.title excl = false)
    (pref : Option (List (List Name))) (score : Recipe → WithTop ℚ) (n : ℕ) :
    ((chooseMeals cat fr excl pref score n).map Recipe.id).Nodup ∧
      ∀ r ∈ chooseMeals cat fr excl pref score n,
        r ∈ cat.recipes ∧ _filter_by_exclusions r.title excl = false := by
  have h := foldl_selectSlot_inv hfr pref score (List.range n) ⟨[], []⟩
    ⟨rfl, List.nodup_nil, by simp⟩
  obtain ⟨h1, h2, h3⟩ := h
  exact ⟨h1 ▸ h2, h3⟩

/-- One candidate step preserves the scan invariant. -/
lemma gapStep_inv {tc : ℚ} {mt : Option MacroTargets} {totals : Totals}
    {gap ce : ℚ} {S : List Product} {acc : ℚ × Option GapChoice} {p : Product}
    (hp : p ∈ S) (hacc : ScanInv tc mt totals gap ce S acc) :
    ScanInv tc mt totals gap ce S (gapStep tc mt totals gap acc p) := by
  obtain ⟨h1, h2⟩ := hacc
  simp only [gapStep]
  split
  · exact ⟨h1, h2⟩
  · by_cases herr : trialError tc mt totals gap p < acc.1
    · rw [if_pos herr]
      refine ⟨le_of_lt (lt_of_lt_of_le herr h1), ?_⟩
      intro ch hch
      obtain rfl : trialChoice tc mt totals gap p = ch := by simpa using hch
      exact ⟨lt_of_lt_of_le herr h1, rfl, p, hp, rfl⟩
    · rw [if_neg herr]
      exact ⟨h1, h2⟩

/-- The candidate scan preserves its invariant over the whole fold. -/
lemma foldl_gapStep_inv {tc : ℚ} {mt : Option MacroTargets} {totals : Totals}
    {gap ce : ℚ} {S : List Product} :
    ∀ (l : List Product), (∀ p ∈ l, p ∈ S) →
      ∀ acc, ScanInv tc mt totals gap ce S acc →
        ScanInv tc mt totals gap ce S (l.foldl (gapStep tc mt totals gap) acc) := by
  intro l
  induction l with
  | nil => exact fun _ acc h => h
  | cons p ps ih =>
      intro hsub acc hacc
      rw [List.foldl_cons]
      exact ih (fun q hq => hsub q (List.mem_cons_of_mem _ hq))
        _ (gapStep_inv (hsub p (List.mem_cons_self p ps)) hacc)

/-- Specification of `bestCandidate`: its error bound and the provenance and
exact error of a recorded best choice. -/
lemma bestCandidate_spec (tc : ℚ) (mt : Option MacroTargets) (totals : Totals)
    (gap ce : ℚ) (prods : List Product) :
    ScanInv tc mt totals gap ce prods (bestCandidate tc mt totals gap ce prods) :=
  foldl_gapStep_inv prods (fun _ h => h) (ce, none)
    ⟨le_refl ce, by intro ch hch; simp at hch⟩

/-- When no positive-calorie product's trial error strictly improves on the
pre-iteration error, the scan records nothing. -/
lemma bestCandidate_no_improvement {tc : ℚ} {mt : Option MacroTargets}
    {totals : Totals} {gap ce : ℚ} :
    ∀ (l : List Product),
      (∀ p ∈ l, 0 < p.kcal_per_100.getD 0 → ¬ trialError tc mt totals gap p < ce) →
      l.foldl (gapStep tc mt totals gap) (ce, none) = (ce, none) := by
  intro l
  induction l with
  | nil => intro _; rfl
  | cons p ps ih =>
      intro h
      rw [List.foldl_cons]
      have hstep : gapStep tc mt totals gap (ce, none) p = (ce, none) := by
        simp only [gapStep]
        split
        · rfl
        · next hk =>
            rw [if_neg (h p (List.mem_cons_self p ps) (lt_of_not_le hk))]
      rw [hstep]
      exact ih (fun q hq hpos => h q (List.mem_cons_of_mem _ hq) hpos)

/-- A committed gap-filler iteration appends exactly one product item whose
trial totals strictly improve the weighted error over the pre-iteration
totals. -/
lemma gapIter_some {tc : ℚ} {mt : Option MacroTargets} {prods : List Product}
    {items items2 : List PlanItem}
    (h : gapIter tc mt prods items = some items2) :
    ∃ ch, items2 = items ++ [productItem ch] ∧
      (∃ p ∈ prods, ch = trialChoice tc mt (_totals items)
        (tc - (_totals items).calories) p) ∧
      gapError tc mt (addChoice (_totals items) ch) <
        gapError tc mt (_totals items) := by
  simp only [gapIter] at h
  cases hb : (bestCandidate tc mt (_totals items) (tc - (_totals items).calories)
      (gapError tc mt (_totals items)) prods).2 with
  | none => rw [hb] at h; exact absurd h (by simp)
  | some ch =>
      simp only [hb] at h
      by_cases hlt : (bestCandidate tc mt (_totals items)
          (tc - (_totals items).calories) (gapError tc mt (_totals items))
          prods).1 < gapError tc mt (_totals items)
      · rw [if_pos hlt] at h
        obtain ⟨hle, hinv⟩ := bestCandidate_spec tc mt (_totals items)
          (tc - (_totals items).calories) (gapError tc mt (_totals items)) prods
        obtain ⟨-, herr, hprov⟩ := hinv ch hb
        obtain rfl : items ++ [productItem ch] = items2 := by simpa using h
        exact ⟨ch, rfl, hprov, herr ▸ hlt⟩
      · rw [if_neg hlt] at h
        exact absurd h (by simp)

/-- The committed item of a trial choice is `fromProduct`. -/
lemma productItem_fromProduct {prods : List Product} {p : Product}
    {tc : ℚ} {mt : Option MacroTargets} {totals : Totals} {gap : ℚ}
    (hp : p ∈ prods) :
    fromProduct prods (productItem (trialChoice tc mt totals gap p)) := by
  refine ⟨rfl, p, hp, rfl, rfl, rfl, rfl, rfl, rfl⟩

/-- With a non-empty product list, the two-round gap filler is two chained
iterations (the second is vacuous when the first already broke). -/
lemma gapFill_eq (tc : ℚ) (mt : Option MacroTargets) (prods : List Product)
    (items : List PlanItem) :
    gapFill tc mt prods items =
      if prods = [] then items
      else gapFillOnce tc mt prods (gapFillOnce tc mt prods items) := by
  by_cases hp : prods = []
  · simp [gapFill, hp]
  · rw [if_neg hp]
    unfold gapFill
    rw [if_neg hp]
    cases h1 : gapIter tc mt prods items with
    | none => simp [gapFillOnce, h1]
    | some items1 =>
        cases h2 : gapIter tc mt prods items1 with
        | none => simp [gapFillOnce, h1, h2]
        | some items2 => simp [gapFillOnce, h1, h2]

/-- One gap-filler iteration appends at most one `fromProduct` item. -/
lemma gapFillOnce_shape (tc : ℚ) (mt : Option MacroTargets) (prods : List Product)
    (items : List PlanItem) :
    ∃ extra : List PlanItem, gapFillOnce tc mt prods items = items ++ extra ∧
      extra.length ≤ 1 ∧ ∀ it ∈ extra, fromProduct prods it := by
  unfold gapFillOnce
  cases h : gapIter tc mt prods items with
  | none => exact ⟨[], by simp, by simp, by simp⟩
  | some items1 =>
      obtain ⟨ch, rfl, ⟨p, hp, hch⟩, -⟩ := gapIter_some h
      refine ⟨[productItem ch], rfl, by simp, ?_⟩
      intro it hit
      rcases List.mem_singleton.mp hit with rfl
      exact hch ▸ productItem_fromProduct hp

/-- The gap filler appends at most two product items to the item list. -/
lemma gapFill_shape (tc : ℚ) (mt : Option MacroTargets) (prods : List Product)
    (items : List PlanItem) :
    ∃ extra : List PlanItem, gapFill tc mt prods items = items ++ extra ∧
      extra.length ≤ 2 ∧ ∀ it ∈ extra, fromProduct prods it := by
  rw [gapFill_eq]
  by_cases hp : prods = []
  · rw [if_pos hp]
    exact ⟨[], by simp, by simp, by simp⟩
  · rw [if_neg hp]
    obtain ⟨e1, he1, hl1, hf1⟩ := gapFillOnce_shape tc mt prods items
    obtain ⟨e2, he2, hl2, hf2⟩ :=
      gapFillOnce_shape tc mt prods (gapFillOnce tc mt prods items)
    refine ⟨e1 ++ e2, ?_, ?_, ?_⟩
    · rw [he2, he1, List.append_assoc]
    · rw [List.length_append]; omega
    · intro it hit
      rcases List.mem_append.mp hit with hit | hit
      · exact hf1 it hit
      · exact hf2 it hit

/-- Membership in the exclusion-filtered recipe pool. -/
lemma mem_filteredRecipes {cat : Catalog} {excl : List Name} {r : Recipe}
    (hr : r ∈ cat.recipes.filter (fun r => !(_filter_by_exclusions r.title excl))) :
    r ∈ cat.recipes ∧ _filter_by_exclusions r.title excl = false := by
  rw [List.mem_filter] at hr
  exact ⟨hr.1, by simpa using hr.2⟩

/-- Decomposition of a planned day's item list: the chosen recipes' items
followed by at most two gap-filler product items. -/
lemma planDay_items (cat : Catalog) (tc : ℚ) (meals : ℕ)
    (mtOpt : Option MacroTargets) (excl : List Name)
    (pref : Option (List (List Name))) :
    ∃ extra : List PlanItem,
      (planDay cat tc meals mtOpt excl pref).1 =
        (chooseMeals cat
          (cat.recipes.filter (fun r => !(_filter_by_exclusions r.title excl)))
          excl pref
          (score_recipe (tc / (max 1 meals : ℕ))
            (mtOpt.map (fun mt => perMealMacros mt meals)))
          meals).map recipeItem ++ extra ∧
      extra.length ≤ 2 ∧
      ∀ it ∈ extra,
        fromProduct
          (cat.products.filter (fun p => !(_filter_by_exclusions p.name excl))) it := by
  simp only [planDay]
  exact gapFill_shape _ _ _ _

/-- C4: no recipe id appears more than once among the recipe-typed items of a
generated daily plan. -/
theorem c4_intra_day_recipe_uniqueness (cat : Catalog) (tc : ℚ) (meals : ℕ)
    (mt : Option MacroTargets) (excl : List Name)
    (pref : Option (List (List Name))) :
    (((generateDailyItems cat tc meals mt excl pref).1.filter
        (fun it => it.item_type == ItemType.recipe)).map PlanItem.item_id).Nodup := by
  obtain ⟨extra, heq, -, hprod⟩ := planDay_items cat tc meals
    (some (deriveMacroTargets tc defaultSplit mt)) excl pref
  simp only [generateDailyItems]
  rw [heq, List.filter_append, List.map_append]
  have h1 : extra.filter (fun it => it.item_type == ItemType.recipe) = [] := by
    rw [List.filter_eq_nil_iff]
    intro it hit
    have := (hprod it hit).1
    simp [this]
  have h2 : ((chooseMeals cat
      (cat.recipes.filter (fun r => !(_filter_by_exclusions r.title excl)))
      excl pref
      (score_recipe (tc / (max 1 meals : ℕ))
        ((some (deriveMacroTargets tc defaultSplit mt)).map
          (fun mt => perMealMacros mt meals)))
      meals).map recipeItem).filter (fun it => it.item_type == ItemType.recipe) =
      (chooseMeals cat
        (cat.recipes.filter (fun r => !(_filter_by_exclusions r.title excl)))
        excl pref
        (score_recipe (tc / (max 1 meals : ℕ))
          ((some (deriveMacroTargets tc defaultSplit mt)).map
            (fun mt => perMealMacros mt meals)))
        meals).map recipeItem := by
    rw [List.filter_eq_self]
    intro it hit
    obtain ⟨r, -, rfl⟩ := List.mem_map.mp hit
    rfl
  rw [h1, h2, List.map_nil, List.append_nil, List.map_map]
  have h3 : PlanItem.item_id ∘ recipeItem = Recipe.id := rfl
  rw [h3]
  exact (chooseMeals_inv (fun r hr => mem_filteredRecipes hr) pref _ meals).1

/-- C5: no item of a generated daily plan carries a title containing an
exclusion term as a case-insensitive substring — neither the chosen recipes
nor the gap-filler products. -/
theorem c5_exclusion_correctness (cat : Catalog) (tc : ℚ) (meals : ℕ)
    (mt : Option MacroTargets) (excl : List Name)
    (pref : Option (List (List Name))) :
    ((generateDailyItems cat tc meals mt excl pref).1.all
      (fun it => !(_filter_by_exclusions it.title excl))) = true := by
  obtain ⟨extra, heq, -, hprod⟩ := planDay_items cat tc meals
    (some (deriveMacroTargets tc defaultSplit mt)) excl pref
  simp only [generateDailyItems]
  rw [heq, List.all_append, Bool.and_eq_true]
  constructor
  · rw [List.all_eq_true]
    intro it hit
    obtain ⟨r, hr, rfl⟩ := List.mem_map.mp hit
    have hx := ((chooseMeals_inv (fun r hr => mem_filteredRecipes hr)
      pref _ meals).2 r hr).2
    simp only [recipeItem]
    simp [hx]
  · rw [List.all_eq_true]
    intro it hit
    obtain ⟨-, p, hp, -, htitle, -⟩ := hprod it hit
    rw [List.mem_filter] at hp
    have hx : _filter_by_exclusions p.name excl = false := by simpa using hp.2
    simp [htitle, hx]

/-- C6: the implemented slot score equals the spec's formula (infinite on zero
or absent calories, weighted macro deviations 2.0/1.0/1.2 when per-meal macro
targets are supplied); a picked candidate is an earliest minimum of its pool
(ties resolved by the pool's stable order); a slot whose candidate pool is
empty is skipped silently. -/
theorem c6_slot_scoring_and_selection (pmt : ℚ) (pm : Option PerMealMacros) :
    (∀ r, score_recipe pmt pm r = specScore pmt pm r) ∧
    (∀ pool r, pickBest (score_recipe pmt pm) pool = some r →
      r ∈ pool ∧ (∀ q ∈ pool, score_recipe pmt pm r ≤ score_recipe pmt pm q) ∧
      ∃ l1 l2, pool = l1 ++ r :: l2 ∧
        ∀ q ∈ l1, score_recipe pmt pm r < score_recipe pmt pm q) ∧
    (∀ (cat : Catalog) (fr : List Recipe) (excl : List Name)
        (pref : Option (List (List Name))) (score : Recipe → WithTop ℚ)
        (st : SelState) (i : ℕ),
      slotCandidates cat fr excl pref st.used i = [] →
      selectSlot cat fr excl pref score st i = st) := by
  refine ⟨?_, ?_, ?_⟩
  · intro r
    rcases pm with _ | t
    · cases hk : r.kcal_per_serving <;>
        simp [score_recipe, specScore, hk]
    · cases hk : r.kcal_per_serving <;>
        rcases t with ⟨_ | p_t, _ | c_t, _ | f_t⟩ <;>
        simp [score_recipe, specScore, macroDev, hk]
  · intro pool r h
    exact ⟨pickBest_mem h, pickBest_min h, pickBest_earliest h⟩
  · intro cat fr excl pref score st i h
    unfold selectSlot
    rw [h]
    rfl

/-- C7: every committed gap-filler product strictly decreases the weighted
error relative to the totals before the addition; when no positive-calorie
candidate strictly improves the error no product is added and no further
iteration runs; at most 2 product items are appended; and the weighted error
is exactly the spec's formula. -/
theorem c7_gap_filler_monotonic (tc : ℚ) (mt : Option MacroTargets)
    (prods : List Product) (items : List PlanItem) :
    (∀ items2, gapIter tc mt prods items = some items2 →
      ∃ ch, items2 = items ++ [productItem ch] ∧
        gapError tc mt (addChoice (_totals items) ch) <
          gapError tc mt (_totals items)) ∧
    ((∀ p ∈ prods, 0 < p.kcal_per_100.getD 0 →
        ¬ trialError tc mt (_totals items) (tc - (_totals items).calories) p <
          gapError tc mt (_totals items)) →
      gapFill tc mt prods items = items) ∧
    (gapFill tc mt prods items).length ≤ items.length + 2 ∧
    (∀ t, gapError tc mt t = specWeightedError tc mt t) := by
  refine ⟨?_, ?_, ?_, ?_⟩
  · intro items2 h
    obtain ⟨ch, rfl, -, hdec⟩ := gapIter_some h
    exact ⟨ch, rfl, hdec⟩
  · intro h
    have hfold := bestCandidate_no_improvement prods h
    have hnone : gapIter tc mt prods items = none := by
      simp only [gapIter, bestCandidate, hfold]
    rw [gapFill_eq]
    by_cases hp : prods = []
    · rw [if_pos hp]
    · rw [if_neg hp]
      simp [gapFillOnce, hnone]
  · obtain ⟨extra, heq, hlen, -⟩ := gapFill_shape tc mt prods items
    rw [heq, List.length_append]
    omega
  · intro t
    rcases mt with _ | m
    · rfl
    · rcases m with ⟨_ | p, _ | f, _ | c⟩ <;>
        simp [gapError, macro_error, specWeightedError, macroDev] <;> ring

/-- C10: with the default 30/35/35 protein/fat/carbs split, omitted or all-None
macro targets are synthesised as `protein_g = tc·0.3/4`, `fat_g = tc·0.35/9`,
`carbs_g = tc·0.35/4`; partially supplied targets have each missing macro
filled from the same split; the normalised targets always have all three
macros present, and `generate_daily_plan` always runs the planning pipeline in
macro-target mode (the gap filler's calorie-only branch is unreachable through
the public interface). -/
theorem c10_default_macro_targets (tc : ℚ) :
    (deriveMacroTargets tc defaultSplit none =
      { protein_g := some (tc * (3/10) / 4), fat_g := some (tc * (7/20) / 9),
        carbs_g := some (tc * (7/20) / 4) }) ∧
    (∀ m : MacroTargets, m.allNone = true →
      deriveMacroTargets tc defaultSplit (some m) =
        { protein_g := some (tc * (3/10) / 4), fat_g := some (tc * (7/20) / 9),
          carbs_g := some (tc * (7/20) / 4) }) ∧
    (∀ m : MacroTargets, m.allNone = false →
      deriveMacroTargets tc defaultSplit (some m) =
        { protein_g := some (m.protein_g.getD (tc * (3/10) / 4)),
          fat_g := some (m.fat_g.getD (tc * (7/20) / 9)),
          carbs_g := some (m.carbs_g.getD (tc * (7/20) / 4)) }) ∧
    (∀ mtOpt : Option MacroTargets,
      (deriveMacroTargets tc defaultSplit mtOpt).protein_g.isSome = true ∧
      (deriveMacroTargets tc defaultSplit mtOpt).fat_g.isSome = true ∧
      (deriveMacroTargets tc defaultSplit mtOpt).carbs_g.isSome = true) ∧
    (∀ (cat : Catalog) (meals : ℕ) (mtOpt : Option MacroTargets)
        (excl : List Name) (pref : Option (List (List Name))),
      generateDailyItems cat tc meals mtOpt excl pref =
        planDay cat tc meals (some (deriveMacroTargets tc defaultSplit mtOpt))
          excl pref) := by
  refine ⟨rfl, ?_, ?_, ?_, fun _ _ _ _ _ => rfl⟩
  · intro m hm
    simp [deriveMacroTargets, defaultSplit, hm]
  · intro m hm
    simp [deriveMacroTargets, defaultSplit, hm]
  · intro mtOpt
    rcases mtOpt with _ | m
    · exact ⟨rfl, rfl, rfl⟩
    · by_cases hm : m.allNone <;>
        simp [deriveMacroTargets, defaultSplit, hm]

/-- Membership after a stable descending insertion. -/
lemma insertDesc_mem (cnt : Recipe → ℕ) (r : Recipe) :
    ∀ (l : List Recipe) (b : Recipe), b ∈ insertDesc cnt r l ↔ b = r ∨ b ∈ l := by
  intro l
  induction l with
  | nil => intro b; simp [insertDesc]
  | cons x xs ih =>
      intro b
      unfold insertDesc
      by_cases hc : cnt x ≤ cnt r
      · rw [if_pos hc]
        simp only [List.mem_cons]
      · rw [if_neg hc]
        simp only [List.mem_cons, ih]
        tauto

/-- A stable descending insertion into a descending list stays descending. -/
lemma insertDesc_sorted (cnt : Recipe → ℕ) (r : Recipe) :
    ∀ l : List Recipe, l.Pairwise (fun a b => cnt b ≤ cnt a) →
      (insertDesc cnt r l).Pairwise (fun a b => cnt b ≤ cnt a) := by
  intro l
  induction l with
  | nil => intro _; simp [insertDesc]
  | cons x xs ih =>
      intro hl
      rw [List.pairwise_cons] at hl
      obtain ⟨hx, hxs⟩ := hl
      unfold insertDesc
      by_cases hc : cnt x ≤ cnt r
      · rw [if_pos hc, List.pairwise_cons]
        refine ⟨?_, List.pairwise_cons.mpr ⟨hx, hxs⟩⟩
        intro b hb
        rcases List.mem_cons.mp hb with rfl | hb
        · exact hc
        · exact le_trans (hx b hb) hc
      · rw [if_neg hc, List.pairwise_cons]
        refine ⟨?_, ih hxs⟩
        intro b hb
        rcases (insertDesc_mem cnt r xs b).mp hb with rfl | hb
        · exact le_of_lt (lt_of_not_le hc)
        · exact hx b hb

/-- Membership is preserved by the descending sort. -/
lemma sortDesc_mem (cnt : Recipe → ℕ) :
    ∀ (l : List Recipe) (b : Recipe), b ∈ sortDesc cnt l ↔ b ∈ l := by
  intro l
  induction l with
  | nil => intro b; simp [sortDesc]
  | cons x xs ih =>
      intro b
      unfold sortDesc
      rw [insertDesc_mem, ih, List.mem_cons]

/-- The descending sort is descending. -/
lemma sortDesc_sorted (cnt : Recipe → ℕ) :
    ∀ l : List Recipe, (sortDesc cnt l).Pairwise (fun a b => cnt b ≤ cnt a) := by
  intro l
  induction l with
  | nil => simp [sortDesc]
  | cons x xs ih => exact insertDesc_sorted cnt x (sortDesc cnt xs) ih

/-- C9 (amended): the alternatives ranking is ordered descending by the number
of the candidate's tag rows matching one of the original's tag names, never
contains the original recipe's id, contains only candidates with at least one
matching tag row, and is empty when the original recipe has no tags. -/
theorem c9_substitute_ranking_amended (cat : Catalog) (orig : Recipe) :
    (rank_substitutes cat orig).Pairwise
      (fun a b => matchingTagRows cat (tagsOf cat orig.id) b ≤
        matchingTagRows cat (tagsOf cat orig.id) a) ∧
    (∀ r ∈ rank_substitutes cat orig,
      r.id ≠ orig.id ∧ 0 < matchingTagRows cat (tagsOf cat orig.id) r) ∧
    (tagsOf cat orig.id = [] → rank_substitutes cat orig = []) := by
  refine ⟨?_, ?_, ?_⟩
  · simp only [rank_substitutes]
    split
    · simp
    · exact List.Pairwise.sublist (List.take_sublist _ _) (sortDesc_sorted _ _)
  · intro r hr
    simp only [rank_substitutes] at hr
    split at hr
    · simp at hr
    · have hr1 : r ∈ sortDesc (matchingTagRows cat (tagsOf cat orig.id))
          (cat.recipes.filter (fun r =>
            decide (r.id ≠ orig.id ∧ 0 < matchingTagRows cat (tagsOf cat orig.id) r))) :=
        List.mem_of_mem_take hr
      rw [sortDesc_mem] at hr1
      rw [List.mem_filter] at hr1
      simpa using hr1.2
  · intro h
    simp only [rank_substitutes]
    rw [if_pos h]

/-- C8 (amended): a serving-size update whose item id has no row surfaces the
error immediately and leaves the store exactly as it was (the unconditional
UPDATE touches no row and no totals recomputation runs). -/
theorem c8_missing_item_no_mutation (cat : Catalog) (item_id : ℕ) (servings : ℚ)
    (d : Name) (db : DBState)
    (h : db.items.all (fun r => r.id != item_id) = true) :
    update_servings cat item_id servings (some d) db =
      (RouteResult.errItemNotFound, db) := by
  have hmap : db.items.map (fun (r : ItemRow) =>
      if r.id == item_id then { r with servings := servings } else r) = db.items := by
    conv_rhs => rw [← List.map_id db.items]
    apply List.map_congr_left
    intro r hr
    have hne := List.all_eq_true.mp h r hr
    rw [bne_iff_ne] at hne
    simp [hne]
  have hfind : db.items.find? (fun r => r.id == item_id) = none := by
    rw [List.find?_eq_none]
    intro x hx
    have hne := List.all_eq_true.mp h x hx
    rw [bne_iff_ne] at hne
    simp [hne]
  simp only [update_servings, hmap, hfind]

/-- C3 (amended): when every attempt's failure occurs before any write (the
header upsert itself raises busy each time), `save_meal_plan` exhausts its 8
retries, surfaces the failure, and the connection's store is untouched. -/
theorem c3_prefail_leaves_store_untouched (date : Name) (target_calories : ℚ)
    (meals_per_day : ℕ) (totals : Totals) (items : List ItemSpec)
    (mtOpt : Option MacroTargets) (slots : Option (List Name)) (c : Conn) :
    save_meal_plan (fun _ st => if st = 0 then some SaveErr.busy else none)
      date target_calories meals_per_day totals items mtOpt slots c =
      (.error .busy, c) := rfl

/-- A lookup by key finds exactly the member when keys are duplicate-free. -/
lemma find?_key_eq {α : Type} (key : α → ℕ) :
    ∀ {l : List α}, ((l.map key).Nodup) → ∀ {r : α}, r ∈ l →
      l.find? (fun x => key x == key r) = some r := by
  intro l
  induction l with
  | nil => intro _ r hr; cases hr
  | cons x xs ih =>
      intro hn r hr
      rw [List.map_cons, List.nodup_cons] at hn
      by_cases hx : (key x == key r) = true
      · rcases List.mem_cons.mp hr with rfl | hmem
        · exact List.find?_cons_of_pos _ hx
        · exfalso
          have hxr : key x = key r := by simpa using hx
          exact hn.1 (hxr ▸ List.mem_map_of_mem key hmem)
      · have hmem : r ∈ xs := by
          rcases List.mem_cons.mp hr with rfl | hmem
          · simp at hx
          · exact hmem
        rw [List.find?_cons_of_neg _ (by simpa using hx)]
        exact ih hn.2 hmem

/-- Rounding to a tenth moves a rational by at most 1/20. -/
lemma abs_roundTenth_sub (q : ℚ) : |roundTenth q - q| ≤ 1/20 := by
  unfold roundTenth
  have h := abs_sub_round (10 * q)
  have heq : ((round (10 * q) : ℤ) : ℚ) / 10 - q = ((round (10 * q) : ℤ) - 10 * q) / 10 := by
    ring
  rw [heq, abs_div]
  have h10 : |(10 : ℚ)| = 10 := by norm_num
  rw [h10]
  rw [div_le_div_iff₀ (by norm_num) (by norm_num)]
  rw [abs_sub_comm] at h
  linarith

/-- The spec's item contribution agrees with the code's recalculation terms. -/
lemma specContribution_eq_recalc (cat : Catalog) (it : ItemRow) :
    specContribution cat it =
      ⟨(recalcContribution cat it).1, (recalcContribution cat it).2.1,
       (recalcContribution cat it).2.2.1, (recalcContribution cat it).2.2.2⟩ := by
  unfold specContribution recalcContribution
  cases it.item_type with
  | recipe => cases cat.recipes.find? (fun r => r.id == it.item_id) <;> rfl
  | product => cases cat.products.find? (fun p => p.id == it.item_id) <;> rfl

/-- Recalculation never touches the item rows. -/
lemma recalc_items (cat : Catalog) (pid : ℕ) (db : DBState) :
    (_recalculate_plan_totals cat pid db).items = db.items := rfl

/-- After `_recalculate_plan_totals`, every plan row with the recalculated id
carries exactly the sums of the spec's per-item contributions over its current
item rows. -/
lemma recalc_plans_spec {cat : Catalog} {pid : ℕ} {db : DBState} {p : PlanRow}
    (hp : p ∈ (_recalculate_plan_totals cat pid db).plans) (hid : p.id = pid) :
    p.total_calories = ((db.items.filter (fun i => i.meal_plan_id == pid)).map
      (fun i => (specContribution cat i).calories)).sum ∧
    p.total_protein = ((db.items.filter (fun i => i.meal_plan_id == pid)).map
      (fun i => (specContribution cat i).protein_g)).sum ∧
    p.total_carbs = ((db.items.filter (fun i => i.meal_plan_id == pid)).map
      (fun i => (specContribution cat i).carbs_g)).sum ∧
    p.total_fat = ((db.items.filter (fun i => i.meal_plan_id == pid)).map
      (fun i => (specContribution cat i).fat_g)).sum := by
  simp only [_recalculate_plan_totals] at hp
  obtain ⟨q, hq, hpq⟩ := List.mem_map.mp hp
  by_cases h : (q.id == pid) = true
  · rw [if_pos h] at hpq
    subst hpq
    refine ⟨?_, ?_, ?_, ?_⟩ <;>
      · simp only []
        apply congrArg List.sum
        apply List.map_congr_left
        intro i hi
        rw [specContribution_eq_recalc]
  · rw [if_neg h] at hpq
    subst hpq
    exact absurd hid (by simpa using h)

/-- A successful serving update is exactly a totals recomputation of the found
item's plan over the serving-updated store. -/
lemma update_servings_ok {cat : Catalog} {item_id : ℕ} {servings : ℚ} {d : Name}
    {db : DBState}
    (hok : (update_servings cat item_id servings (some d) db).1 = .ok) :
    ∃ row, (db.items.map (fun (r : ItemRow) =>
        if r.id == item_id then { r with servings := servings } else r)).find?
        (fun r => r.id == item_id) = some row ∧
      (update_servings cat item_id servings (some d) db).2 =
        _recalculate_plan_totals cat row.meal_plan_id
          { db with items := db.items.map (fun (r : ItemRow) =>
            if r.id == item_id then { r with servings := servings } else r) } := by
  simp only [update_servings] at hok ⊢
  cases hf : (db.items.map (fun (r : ItemRow) =>
      if r.id == item_id then { r with servings := servings } else r)).find?
      (fun r => r.id == item_id) with
  | none =>
      rw [hf] at hok
      exact absurd hok (by simp)
  | some row => exact ⟨row, rfl, rfl⟩

/-- The substitution route's final store is exactly a totals recomputation of
the given plan id over the reference-rewritten store (whether or not the plan
row exists). -/
lemma substitute_item_state (cat : Catalog) (item_id nid pid : ℕ) (db : DBState) :
    (substitute_item cat item_id nid pid db).2 =
      _recalculate_plan_totals cat pid
        { db with items := db.items.map (fun (r : ItemRow) =>
          if r.id == item_id then { r with item_id := nid } else r) } := by
  simp only [substitute_item]
  cases hf : (_recalculate_plan_totals cat pid
      { db with items := db.items.map (fun (r : ItemRow) =>
        if r.id == item_id then { r with item_id := nid } else r) }).plans.find?
      (fun p => p.id == pid) with
  | none => rfl
  | some q => rfl

/-- Generated items carry exactly their catalog contributions, provided the
catalog ids are duplicate-free. -/
lemma generate_item_contribution {cat : Catalog} {tc : ℚ} {meals : ℕ}
    {mt : Option MacroTargets} {excl : List Name}
    {pref : Option (List (List Name))}
    (hr : (cat.recipes.map Recipe.id).Nodup)
    (hp : (cat.products.map Product.id).Nodup) :
    ∀ it ∈ (generateDailyItems cat tc meals mt excl pref).1,
      specItemContribution cat it =
        ⟨it.calories, it.protein_g, it.carbs_g, it.fat_g⟩ := by
  intro it hit
  obtain ⟨extra, heq, -, hprod⟩ := planDay_items cat tc meals
    (some (deriveMacroTargets tc defaultSplit mt)) excl pref
  rw [show (generateDailyItems cat tc meals mt excl pref).1 =
    (planDay cat tc meals (some (deriveMacroTargets tc defaultSplit mt)) excl pref).1
    from rfl, heq] at hit
  rcases List.mem_append.mp hit with hit | hit
  · obtain ⟨r, hrmem, rfl⟩ := List.mem_map.mp hit
    have hrc := ((chooseMeals_inv (fun r h => mem_filteredRecipes h)
      pref _ meals).2 r hrmem).1
    simp only [specItemContribution, recipeItem]
    rw [find?_key_eq Recipe.id hr hrc]
    rfl
  · obtain ⟨htype, p, hpmem, hid, -, hc, hpp, hcc, hff⟩ := hprod it hit
    have hpc : p ∈ cat.products := (List.mem_filter.mp hpmem).1
    simp only [specItemContribution, htype, hid]
    rw [find?_key_eq Product.id hp hpc]
    rw [hc, hpp, hcc, hff]

/-- C1 (amended): the totals invariant at the three mutation points, for the
plan row the write actually targeted.  (1) A freshly generated plan's totals
equal the sum of its items' catalog contributions within 1/10 (the only
deviation is the rounding to one decimal in `_totals`).  (2) After a
successful serving-size update, the stored totals of the updated item's plan
row equal the exact sum of the spec contributions of that plan's current item
rows.  (3) The same after the substitution route's totals recomputation. -/
theorem c1_totals_match_contributions :
    (∀ (cat : Catalog) (tc : ℚ) (meals : ℕ) (mt : Option MacroTargets)
        (excl : List Name) (pref : Option (List (List Name))),
      (cat.recipes.map Recipe.id).Nodup → (cat.products.map Product.id).Nodup →
      |(generateDailyItems cat tc meals mt excl pref).2.calories -
        ((generateDailyItems cat tc meals mt excl pref).1.map
          (fun it => (specItemContribution cat it).calories)).sum| ≤ 1/10 ∧
      |(generateDailyItems cat tc meals mt excl pref).2.protein_g -
        ((generateDailyItems cat tc meals mt excl pref).1.map
          (fun it => (specItemContribution cat it).protein_g)).sum| ≤ 1/10 ∧
      |(generateDailyItems cat tc meals mt excl pref).2.carbs_g -
        ((generateDailyItems cat tc meals mt excl pref).1.map
          (fun it => (specItemContribution cat it).carbs_g)).sum| ≤ 1/10 ∧
      |(generateDailyItems cat tc meals mt excl pref).2.fat_g -
        ((generateDailyItems cat tc meals mt excl pref).1.map
          (fun it => (specItemContribution cat it).fat_g)).sum| ≤ 1/10) ∧
    (∀ (cat : Catalog) (item_id : ℕ) (servings : ℚ) (d : Name) (db : DBState),
      (update_servings cat item_id servings (some d) db).1 = .ok →
      ∀ row, (update_servings cat item_id servings (some d) db).2.items.find?
          (fun r => r.id == item_id) = some row →
      ∀ p ∈ (update_servings cat item_id servings (some d) db).2.plans,
        p.id = row.meal_plan_id →
        p.total_calories = (((update_servings cat item_id servings (some d) db).2.items.filter
          (fun i => i.meal_plan_id == p.id)).map
          (fun i => (specContribution cat i).calories)).sum ∧
        p.total_protein = (((update_servings cat item_id servings (some d) db).2.items.filter
          (fun i => i.meal_plan_id == p.id)).map
          (fun i => (specContribution cat i).protein_g)).sum ∧
        p.total_carbs = (((update_servings cat item_id servings (some d) db).2.items.filter
          (fun i => i.meal_plan_id == p.id)).map
          (fun i => (specContribution cat i).carbs_g)).sum ∧
        p.total_fat = (((update_servings cat item_id servings (some d) db).2.items.filter
          (fun i => i.meal_plan_id == p.id)).map
          (fun i => (specContribution cat i).fat_g)).sum) ∧
    (∀ (cat : Catalog) (item_id nid pid : ℕ) (db : DBState),
      ∀ p ∈ (substitute_item cat item_id nid pid db).2.plans, p.id = pid →
        p.total_calories = (((substitute_item cat item_id nid pid db).2.items.filter
          (fun i => i.meal_plan_id == p.id)).map
          (fun i => (specContribution cat i).calories)).sum ∧
        p.total_protein = (((substitute_item cat item_id nid pid db).2.items.filter
          (fun i => i.meal_plan_id == p.id)).map
          (fun i => (specContribution cat i).protein_g)).sum ∧
        p.total_carbs = (((substitute_item cat item_id nid pid db).2.items.filter
          (fun i => i.meal_plan_id == p.id)).map
          (fun i => (specContribution cat i).carbs_g)).sum ∧
        p.total_fat = (((substitute_item cat item_id nid pid db).2.items.filter
          (fun i => i.meal_plan_id == p.id)).map
          (fun i => (specContribution cat i).fat_g)).sum) := by
  refine ⟨?_, ?_, ?_⟩
  · intro cat tc meals mt excl pref hr hp
    have hcal : ((generateDailyItems cat tc meals mt excl pref).1.map
        (fun it => (specItemContribution cat it).calories)).sum =
        ((generateDailyItems cat tc meals mt excl pref).1.map PlanItem.calories).sum := by
      refine congrArg List.sum (List.map_congr_left ?_)
      intro it hit
      rw [generate_item_contribution hr hp it hit]
    have hpro : ((generateDailyItems cat tc meals mt excl pref).1.map
        (fun it => (specItemContribution cat it).protein_g)).sum =
        ((generateDailyItems cat tc meals mt excl pref).1.map PlanItem.protein_g).sum := by
      refine congrArg List.sum (List.map_congr_left ?_)
      intro it hit
      rw [generate_item_contribution hr hp it hit]
    have hcar : ((generateDailyItems cat tc meals mt excl pref).1.map
        (fun it => (specItemContribution cat it).carbs_g)).sum =
        ((generateDailyItems cat tc meals mt excl pref).1.map PlanItem.carbs_g).sum := by
      refine congrArg List.sum (List.map_congr_left ?_)
      intro it hit
      rw [generate_item_contribution hr hp it hit]
    have hfat : ((generateDailyItems cat tc meals mt excl pref).1.map
        (fun it => (specItemContribution cat it).fat_g)).sum =
        ((generateDailyItems cat tc meals mt excl pref).1.map PlanItem.fat_g).sum := by
      refine congrArg List.sum (List.map_congr_left ?_)
      intro it hit
      rw [generate_item_contribution hr hp it hit]
    rw [hcal, hpro, hcar, hfat]
    refine ⟨?_, ?_, ?_, ?_⟩ <;>
      exact le_trans (abs_roundTenth_sub _) (by norm_num)
  · intro cat item_id servings d db hok row hrow p hpmem hpid
    obtain ⟨row0, hfind0, hstate⟩ := update_servings_ok hok
    have hitems : (update_servings cat item_id servings (some d) db).2.items =
        db.items.map (fun (r : ItemRow) =>
          if r.id == item_id then { r with servings := servings } else r) := by
      rw [hstate]
      rfl
    rw [hitems] at hrow
    obtain rfl : row0 = row := by
      have := hfind0.symm.trans hrow
      exact Option.some.inj this
    rw [hstate] at hpmem
    have h4 := recalc_plans_spec hpmem hpid
    rw [hitems, hpid]
    exact h4
  · intro cat item_id nid pid db p hpmem hpid
    rw [substitute_item_state] at hpmem
    have h4 := recalc_plans_spec hpmem hpid
    have hitems : (substitute_item cat item_id nid pid db).2.items =
        db.items.map (fun (r : ItemRow) =>
          if r.id == item_id then { r with item_id := nid } else r) := by
      rw [substitute_item_state]
      rfl
    rw [hitems, hpid]
    exact h4

/-! ## Concrete scenarios

The concrete scenarios are settled by `decide`; the rational-arithmetic
primitives are `@[irreducible]` upstream, which only hides them from
unfolding — inside this section they are made semireducible again so the
evaluation can proceed. -/

section ConcreteScenarios

attribute [local semireducible] Rat.mul Rat.add Rat.sub Rat.inv Rat.ofScientific

/-- C2: saving twice for the same date on one connection leaves one header row
(updated from the second call), but the date's plan keeps the first call's two
item rows and the second call's item lands under the phantom plan id 2 (the
stale `lastrowid` of the first call's last item insert). -/
theorem c2_stale_lastrowid_bug :
    (c2res2.2.db.plans.map (fun p => (p.id, p.date, p.target_calories))) =
      [(1, ['d'], (2100 : ℚ))] ∧
    ((c2res2.2.db.items.filter (fun i => i.meal_plan_id == 1)).map
      (fun i => (i.item_type, i.item_id))) =
      [(ItemType.recipe, 10), (ItemType.recipe, 11)] ∧
    ((c2res2.2.db.items.filter (fun i => i.meal_plan_id == 1)).map
      (fun i => (i.item_type, i.item_id))) ≠ [(ItemType.recipe, 12)] ∧
    (c2res2.2.db.items.map (fun i => (i.id, i.meal_plan_id, i.item_id))) =
      [(1, 1, 10), (2, 1, 11), (3, 2, 12)] := by
  decide

/-- C3: when the item insert keeps failing after the header upsert and the item
delete succeeded, the surfaced failure leaves the date's plan with the *new*
header and an empty item list — the previously stored plan is destroyed, and a
reader observes a plan header without its items. -/
theorem c3_counterexample :
    c3res.1 = .error .busy ∧
    c3res.2.db.items = [] ∧
    (c3res.2.db.plans.map (fun p => (p.id, p.total_calories))) = [(1, (600 : ℚ))] ∧
    c3db0.items ≠ [] := by
  decide

/-- C1: after regenerating a date on a connection that has inserted rows, the
stored plan for that date carries the new totals (700) while its item rows are
still the first generation's (contributing 1200) — the stored totals differ
from the item contributions by far more than the 0.1 tolerance. -/
theorem c1_counterexample :
    (c1gen2.1.2.db.plans.map (fun p => (p.id, p.date, p.total_calories))) =
      [(1, ['d'], (700 : ℚ))] ∧
    (((c1gen2.1.2.db.items.filter (fun i => i.meal_plan_id == 1)).map
      (fun i => (specContribution c1cat i).calories)).sum) = 1200 ∧
    ¬ (|(700 : ℚ) - 1200| ≤ 1/10) := by
  decide

/-- C8: substituting a nonexistent recipe id surfaces no error, rewrites the
item's reference to the dangling id and recomputes the plan's totals to zero —
a partial mutation is applied although the referenced recipe has no row. -/
theorem c8_counterexample :
    c8res.1 = .ok ∧
    (c8cat.recipes.all (fun r => r.id != 99)) = true ∧
    (c8res.2.items.map (fun i => i.item_id)) = [99] ∧
    (c8res.2.plans.map (fun p => p.total_calories)) = [(0 : ℚ)] ∧
    c8res.2 ≠ c8db := by
  decide

/-- C9: the ranking orders recipe 2 (one shared tag, but three matching tag
rows) before recipe 3 (two shared tags) — the output is not ordered by the
count of shared tags descending. -/
theorem c9_counterexample :
    ((rank_substitutes c9cat c9orig).map Recipe.id) = [2, 3] ∧
    specSharedTagCount c9cat c9orig.id 2 = 1 ∧
    specSharedTagCount c9cat c9orig.id 3 = 2 ∧
    ((rank_substitutes c9cat c9orig).map
      (fun r => specSharedTagCount c9cat c9orig.id r.id)) = [1, 2] ∧
    ¬ ((rank_substitutes c9cat c9orig).map
      (fun r => specSharedTagCount c9cat c9orig.id r.id)).Pairwise
        (fun a b => b ≤ a) := by
  decide

/-! ## Witnesses -/

/-- Witness for C1: the generated-plan tolerance bound at the concrete
three-recipe catalog. -/
theorem c1_witness :
    |(generateDailyItems c1cat 1200 2 none [] none).2.calories -
      ((generateDailyItems c1cat 1200 2 none [] none).1.map
        (fun it => (specItemContribution c1cat it).calories)).sum| ≤ 1/10 :=
  (c1_totals_match_contributions.1 c1cat 1200 2 none [] none
    (by decide) (by decide)).1

/-- Witness for C6: the pick at a concrete two-recipe pool. -/
theorem c6_witness :
    (⟨1, ['a'], some 500, none, none, none⟩ : Recipe) ∈ c6pool ∧
    (∀ q ∈ c6pool, score_recipe 600 none ⟨1, ['a'], some 500, none, none, none⟩ ≤
      score_recipe 600 none q) ∧
    ∃ l1 l2, c6pool = l1 ++ (⟨1, ['a'], some 500, none, none, none⟩ : Recipe) :: l2 ∧
      ∀ q ∈ l1, score_recipe 600 none ⟨1, ['a'], some 500, none, none, none⟩ <
        score_recipe 600 none q :=
  (c6_slot_scoring_and_selection 600 none).2.1 c6pool
    ⟨1, ['a'], some 500, none, none, none⟩ (by decide)

/-- Witness for C7: a concrete committed iteration strictly decreases the
weighted error. -/
theorem c7_witness :
    ∃ ch, [(⟨.product, 5, 2, 100, 0, 0, 0, ['p']⟩ : PlanItem)] =
        ([] : List PlanItem) ++ [productItem ch] ∧
      gapError 100 none (addChoice (_totals []) ch) < gapError 100 none (_totals []) :=
  (c7_gap_filler_monotonic 100 none [c7prod] []).1
    [⟨.product, 5, 2, 100, 0, 0, 0, ['p']⟩] (by decide)

/-- Witness for C8: updating a nonexistent item id of the concrete store
surfaces the error and leaves the store untouched. -/
theorem c8_witness :
    update_servings c8cat 42 2 (some ['d']) c8db =
      (RouteResult.errItemNotFound, c8db) :=
  c8_missing_item_no_mutation c8cat 42 2 ['d'] c8db (by decide)

/-- Witness for C9: an original recipe with no tags yields no alternatives. -/
theorem c9_witness :
    rank_substitutes (⟨[c9orig], [], []⟩ : Catalog) c9orig = [] :=
  (c9_substitute_ranking_amended (⟨[c9orig], [], []⟩ : Catalog) c9orig).2.2
    (by decide)

/-- Witness for C10: the synthesised and the partially filled targets at
concrete inputs. -/
theorem c10_witness :
    deriveMacroTargets 2000 defaultSplit (some ⟨none, none, none⟩) =
      { protein_g := some (2000 * (3/10) / 4), fat_g := some (2000 * (7/20) / 9),
        carbs_g := some (2000 * (7/20) / 4) } ∧
    deriveMacroTargets 2000 defaultSplit (some ⟨some 160, none, some 210⟩) =
      { protein_g := some 160, fat_g := some (2000 * (7/20) / 9),
        carbs_g := some 210 } :=
  ⟨(c10_default_macro_targets 2000).2.1 ⟨none, none, none⟩ (by decide),
   (c10_default_macro_targets 2000).2.2.1 ⟨some 160, none, some 210⟩ (by decide)⟩

end ConcreteScenarios

end AH
